import Mathlib

/-!
# Verification of the ANLEd raw-mode editor core (`src/anled.py`)

A shallow embedding of the editor's core data structures and operations:

* Python `bytearray`/`list`/`str` slicing primitives (with Python's index
  clamping and negative-index semantics),
* a model of CPython's UTF-8 codec (`str.encode('utf-8')` and
  `bytes.decode('utf-8', 'replace')`),
* the `GapBuffer` class (byte-level gap buffer with character addressing),
* the `KeyDecoder` Unix backend and its escape-sequence table,
* the `Editor` document/cursor/selection model, `handle_keypress`
  dispatch with the default key bindings, and `save_file`.

I/O boundaries (terminal size, interactive prompts, file existence and the
outcome of the file write) are passed in as explicit environment values, so
every function is a pure state transformer, exactly mirroring the mutations
performed by the Python source.  The model fixes `IS_UNIX = True` (the raw
editor's Unix configuration); strings are modelled as `List Char` and byte
strings as `List Nat`.
-/

namespace Anled

/-! ## Python sequence primitives -/

/-- Resolve a Python slice index against a sequence of length `L`:
negative indices count from the end, and the result is clamped to `[0, L]`.
This is the semantics of CPython's `PySlice_AdjustIndices`. -/
def sliceIdx (L : Nat) (i : Int) : Nat :=
  if 0 ≤ i then min i.toNat L else ((L : Int) + i).toNat

/-- Python `l[a:b]` (for a list/str/bytearray). -/
def pySlice (l : List α) (a b : Int) : List α :=
  (l.take (sliceIdx l.length b)).drop (sliceIdx l.length a)

/-- Python `l[a:]`. -/
def pySliceFrom (l : List α) (a : Int) : List α :=
  l.drop (sliceIdx l.length a)

/-- Python `l[:b]`. -/
def pySliceTo (l : List α) (b : Int) : List α :=
  l.take (sliceIdx l.length b)

/-- Python slice assignment `l[a:b] = src` on a `bytearray`/`list`
(the replaced range and the replacement may have different lengths;
the sequence is resized accordingly). -/
def pySetSlice (l : List α) (a b : Int) (src : List α) : List α :=
  let a' := sliceIdx l.length a
  let b' := max a' (sliceIdx l.length b)
  l.take a' ++ src ++ l.drop b'

/-- Python `l[a:] = src`. -/
def pySetSliceFrom (l : List α) (a : Int) (src : List α) : List α :=
  pySetSlice l a (l.length : Int) src

/-- Python `del l[a:b]`. -/
def pyDelSlice (l : List α) (a b : Int) : List α :=
  let a' := sliceIdx l.length a
  let b' := max a' (sliceIdx l.length b)
  l.take a' ++ l.drop b'

/-- Python `l[i]` with a default for the out-of-range (`IndexError`) case;
negative indices count from the end. -/
def pyGet (l : List α) (i : Int) (dflt : α) : α :=
  if 0 ≤ i then l.getD i.toNat dflt
  else l.getD (((l.length : Int) + i).toNat) dflt

/-- Python `l[i] = x` (out-of-range indices leave the list unchanged,
matching that the Python `IndexError` paths are never reached). -/
def pySet (l : List α) (i : Int) (x : α) : List α :=
  if 0 ≤ i then l.set i.toNat x
  else l.set (((l.length : Int) + i).toNat) x

/-- Python `l.insert(i, x)` (clamps the position like CPython). -/
def pyInsert (l : List α) (i : Int) (x : α) : List α :=
  let i' := sliceIdx l.length i
  l.take i' ++ [x] ++ l.drop i'

/-- Python `l.pop(i)`: the list with the element at `i` removed
(only used at in-range indices). -/
def pyPop (l : List α) (i : Int) : List α :=
  let i' := sliceIdx l.length i
  l.take i' ++ l.drop (i' + 1)

theorem sliceIdx_le (L : Nat) (i : Int) : sliceIdx L i ≤ L := by
  unfold sliceIdx
  split
  · exact min_le_right _ _
  · rename_i h
    omega

theorem sliceIdx_of_nonneg_le {L : Nat} {i : Int} (h0 : 0 ≤ i) (h : i ≤ (L : Int)) :
    sliceIdx L i = i.toNat := by
  unfold sliceIdx
  rw [if_pos h0]
  omega

theorem length_pySetSlice (l : List α) (a b : Int) (src : List α) :
    (pySetSlice l a b src).length =
      sliceIdx l.length a + src.length +
        (l.length - max (sliceIdx l.length a) (sliceIdx l.length b)) := by
  unfold pySetSlice
  simp [List.length_append, List.length_take, List.length_drop]
  have ha := sliceIdx_le l.length a
  have hb := sliceIdx_le l.length b
  omega

theorem length_pySetSliceFrom (l : List α) (a : Int) (src : List α) :
    (pySetSliceFrom l a src).length = sliceIdx l.length a + src.length := by
  unfold pySetSliceFrom
  rw [length_pySetSlice]
  have ha := sliceIdx_le l.length a
  have hb : sliceIdx l.length (l.length : Int) = l.length := by
    unfold sliceIdx
    simp
  omega

/-! ## UTF-8 codec

A model of CPython's UTF-8 codec.  `utf8EncodeChar` is `str.encode('utf-8')`
for a single character (Lean `Char`s are exactly the Unicode scalar values a
Python `str` character can take, minus surrogates, which the editor never
produces).  `utf8Decode` is `bytes.decode('utf-8', 'replace')`: invalid
input is replaced by U+FFFD, one replacement character per maximal subpart,
as CPython does. -/

/-- UTF-8 encoding of one character (models CPython `str.encode('utf-8')`). -/
def utf8EncodeChar (c : Char) : List Nat :=
  let n := c.toNat
  if n < 0x80 then [n]
  else if n < 0x800 then [0xC0 + n / 0x40, 0x80 + n % 0x40]
  else if n < 0x10000 then
    [0xE0 + n / 0x1000, 0x80 + (n / 0x40) % 0x40, 0x80 + n % 0x40]
  else
    [0xF0 + n / 0x40000, 0x80 + (n / 0x1000) % 0x40, 0x80 + (n / 0x40) % 0x40,
      0x80 + n % 0x40]

/-- UTF-8 encoding of a string (models CPython `str.encode('utf-8')`). -/
def utf8Encode : List Char → List Nat
  | [] => []
  | c :: cs => utf8EncodeChar c ++ utf8Encode cs

/-- The replacement character U+FFFD. -/
def replChar : Char := '�'

/-- Is `b` a UTF-8 continuation byte? -/
def isCont (b : Nat) : Prop := 0x80 ≤ b ∧ b < 0xC0

instance (b : Nat) : Decidable (isCont b) := by
  unfold isCont
  infer_instance

/-- One decoding step of CPython's UTF-8 `'replace'` decoder: given the lead
byte `b0` and the bytes after it, return the decoded character (U+FFFD on a
maximal invalid subpart) and the number of continuation bytes consumed. -/
def utf8DecodeStep (b0 : Nat) (rest : List Nat) : Char × Nat :=
  if b0 < 0x80 then (Char.ofNat b0, 0)
  else if b0 < 0xC2 then (replChar, 0)
  else if b0 < 0xE0 then
    match rest with
    | [] => (replChar, 0)
    | b1 :: _ =>
      if isCont b1 then (Char.ofNat ((b0 - 0xC0) * 0x40 + (b1 - 0x80)), 1)
      else (replChar, 0)
  else if b0 < 0xF0 then
    match rest with
    | [] => (replChar, 0)
    | b1 :: rest' =>
      if (b0 = 0xE0 ∧ 0xA0 ≤ b1 ∧ b1 < 0xC0) ∨
         (b0 = 0xED ∧ 0x80 ≤ b1 ∧ b1 < 0xA0) ∨
         (b0 ≠ 0xE0 ∧ b0 ≠ 0xED ∧ isCont b1) then
        match rest' with
        | [] => (replChar, 1)
        | b2 :: _ =>
          if isCont b2 then
            (Char.ofNat ((b0 - 0xE0) * 0x1000 + (b1 - 0x80) * 0x40 + (b2 - 0x80)), 2)
          else (replChar, 1)
      else (replChar, 0)
  else if b0 < 0xF5 then
    match rest with
    | [] => (replChar, 0)
    | b1 :: rest' =>
      if (b0 = 0xF0 ∧ 0x90 ≤ b1 ∧ b1 < 0xC0) ∨
         (b0 = 0xF4 ∧ 0x80 ≤ b1 ∧ b1 < 0x90) ∨
         (b0 ≠ 0xF0 ∧ b0 ≠ 0xF4 ∧ isCont b1) then
        match rest' with
        | [] => (replChar, 1)
        | b2 :: rest'' =>
          if isCont b2 then
            match rest'' with
            | [] => (replChar, 2)
            | b3 :: _ =>
              if isCont b3 then
                (Char.ofNat ((b0 - 0xF0) * 0x40000 + (b1 - 0x80) * 0x1000 +
                    (b2 - 0x80) * 0x40 + (b3 - 0x80)), 3)
              else (replChar, 2)
          else (replChar, 1)
      else (replChar, 0)
  else (replChar, 0)

/-- Fuel-indexed driver for the decoder (structural recursion on the fuel so
that concrete instances evaluate; the fuel is immaterial as long as it is at
least the length of the input, see `utf8DecodeAux_congr`). -/
def utf8DecodeAux : Nat → List Nat → List Char
  | _, [] => []
  | 0, _ :: _ => []
  | fuel + 1, b0 :: rest =>
    (utf8DecodeStep b0 rest).1 ::
      utf8DecodeAux fuel (rest.drop (utf8DecodeStep b0 rest).2)

/-- UTF-8 decoding with the `'replace'` error handler (models CPython
`bytes.decode('utf-8', 'replace')`: each maximal subpart of an invalid
sequence is replaced by one U+FFFD). -/
def utf8Decode (l : List Nat) : List Char := utf8DecodeAux l.length l

theorem utf8DecodeAux_nil (fuel : Nat) : utf8DecodeAux fuel [] = [] := by
  cases fuel <;> rfl

theorem utf8DecodeAux_congr :
    ∀ (f1 f2 : Nat) (l : List Nat), l.length ≤ f1 → l.length ≤ f2 →
      utf8DecodeAux f1 l = utf8DecodeAux f2 l := by
  intro f1
  induction f1 with
  | zero =>
    intro f2 l h1 _
    have : l = [] := List.length_eq_zero.mp (by omega)
    subst this
    rw [utf8DecodeAux_nil, utf8DecodeAux_nil]
  | succ f ih =>
    intro f2 l h1 h2
    cases l with
    | nil => rw [utf8DecodeAux_nil, utf8DecodeAux_nil]
    | cons b0 rest =>
      cases f2 with
      | zero => simp at h2
      | succ f2' =>
        show _ :: _ = _ :: _
        congr 1
        apply ih
        · simp only [List.length_drop]
          simp at h1
          omega
        · simp only [List.length_drop]
          simp at h2
          omega

/-- The one-step unfolding of `utf8Decode`. -/
theorem utf8Decode_cons (b0 : Nat) (rest : List Nat) :
    utf8Decode (b0 :: rest) = (utf8DecodeStep b0 rest).1 ::
      utf8Decode (rest.drop (utf8DecodeStep b0 rest).2) := by
  unfold utf8Decode
  show _ :: _ = _ :: _
  congr 1
  apply utf8DecodeAux_congr
  · simp only [List.length_drop]
    omega
  · exact le_rfl

theorem utf8Encode_append (l₁ l₂ : List Char) :
    utf8Encode (l₁ ++ l₂) = utf8Encode l₁ ++ utf8Encode l₂ := by
  induction l₁ with
  | nil => simp [utf8Encode]
  | cons c cs ih => simp [utf8Encode, ih]

theorem utf8Encode_take_append_drop (n : Nat) (l : List Char) :
    utf8Encode (l.take n) ++ utf8Encode (l.drop n) = utf8Encode l := by
  rw [← utf8Encode_append, List.take_append_drop]

theorem length_utf8Encode_take_le (n : Nat) (l : List Char) :
    (utf8Encode (l.take n)).length ≤ (utf8Encode l).length := by
  conv_rhs => rw [← utf8Encode_take_append_drop n l]
  simp

theorem char_toNat_valid (c : Char) :
    c.toNat < 0xd800 ∨ (0xdfff < c.toNat ∧ c.toNat < 0x110000) := c.valid

/-- Decoding the UTF-8 encoding of one character in front of any byte tail
consumes exactly that encoding and yields the character back. -/
theorem utf8Decode_encodeChar_cons (c : Char) (l : List Nat) :
    utf8Decode (utf8EncodeChar c ++ l) = c :: utf8Decode l := by
  have hval := char_toNat_valid c
  set n := c.toNat with hn
  by_cases h1 : n < 0x80
  · simp only [utf8EncodeChar, ← hn, if_pos h1, List.cons_append, List.nil_append]
    rw [utf8Decode_cons]
    simp only [utf8DecodeStep, if_pos h1]
    rw [hn, Char.ofNat_toNat]
    simp
  · by_cases h2 : n < 0x800
    · simp only [utf8EncodeChar, ← hn, if_neg h1, if_pos h2, List.cons_append,
        List.nil_append]
      rw [utf8Decode_cons]
      simp only [utf8DecodeStep]
      rw [if_neg (by omega), if_neg (by omega), if_pos (by omega),
        if_pos (show isCont (0x80 + n % 0x40) by simp only [isCont]; omega)]
      have hv : (0xC0 + n / 0x40 - 0xC0) * 0x40 + (0x80 + n % 0x40 - 0x80) = n := by
        omega
      rw [hv, hn, Char.ofNat_toNat]
      simp
    · by_cases h3 : n < 0x10000
      · simp only [utf8EncodeChar, ← hn, if_neg h1, if_neg h2, if_pos h3,
          List.cons_append, List.nil_append]
        rw [utf8Decode_cons]
        simp only [utf8DecodeStep]
        rw [if_neg (by omega), if_neg (by omega), if_neg (by omega),
          if_pos (by omega)]
        rw [if_pos ?hcond]
        case hcond =>
          simp only [isCont]
          omega
        rw [if_pos (show isCont (0x80 + n % 0x40) by simp only [isCont]; omega)]
        have hv : (0xE0 + n / 0x1000 - 0xE0) * 0x1000 +
            (0x80 + n / 0x40 % 0x40 - 0x80) * 0x40 + (0x80 + n % 0x40 - 0x80) = n := by
          omega
        rw [hv, hn, Char.ofNat_toNat]
        simp
      · simp only [utf8EncodeChar, ← hn, if_neg h1, if_neg h2, if_neg h3,
          List.cons_append, List.nil_append]
        rw [utf8Decode_cons]
        simp only [utf8DecodeStep]
        rw [if_neg (by omega), if_neg (by omega), if_neg (by omega),
          if_neg (by omega), if_pos (by omega)]
        rw [if_pos ?hcond4]
        case hcond4 =>
          simp only [isCont]
          omega
        rw [if_pos (show isCont (0x80 + n / 0x40 % 0x40) by simp only [isCont]; omega),
          if_pos (show isCont (0x80 + n % 0x40) by simp only [isCont]; omega)]
        have hv : (0xF0 + n / 0x40000 - 0xF0) * 0x40000 +
            (0x80 + n / 0x1000 % 0x40 - 0x80) * 0x1000 +
            (0x80 + n / 0x40 % 0x40 - 0x80) * 0x40 + (0x80 + n % 0x40 - 0x80) = n := by
          omega
        rw [hv, hn, Char.ofNat_toNat]
        simp

/-- Round-trip of the modelled CPython codec. -/
theorem utf8Decode_utf8Encode (cs : List Char) : utf8Decode (utf8Encode cs) = cs := by
  induction cs with
  | nil => rfl
  | cons c cs ih => rw [utf8Encode, utf8Decode_encodeChar_cons, ih]

/-! ### Nat-valued special cases of the Python slicing primitives -/

theorem sliceIdx_natCast (L a : Nat) : sliceIdx L (a : Int) = min a L := by
  unfold sliceIdx
  rw [if_pos (by positivity)]
  simp

theorem take_min_length (l : List α) (b : Nat) : l.take (min b l.length) = l.take b := by
  rcases le_total b l.length with h | h
  · rw [min_eq_left h]
  · rw [min_eq_right h, List.take_length, List.take_of_length_le h]

theorem drop_min_length (l : List α) (a : Nat) : l.drop (min a l.length) = l.drop a := by
  rcases le_total a l.length with h | h
  · rw [min_eq_left h]
  · rw [min_eq_right h, List.drop_length, List.drop_of_length_le h]

theorem pySliceTo_natCast (l : List α) (b : Nat) : pySliceTo l (b : Int) = l.take b := by
  simp only [pySliceTo, sliceIdx_natCast, take_min_length]

theorem pySliceFrom_natCast (l : List α) (a : Nat) : pySliceFrom l (a : Int) = l.drop a := by
  simp only [pySliceFrom, sliceIdx_natCast, drop_min_length]

theorem pySlice_natCast (l : List α) (a b : Nat) :
    pySlice l (a : Int) (b : Int) = (l.take b).drop a := by
  simp only [pySlice, sliceIdx_natCast, take_min_length]
  rcases le_total a l.length with h | h
  · rw [min_eq_left h]
  · rw [min_eq_right h,
      List.drop_of_length_le (le_trans (by rw [List.length_take]; omega) h),
      List.drop_of_length_le (by rw [List.length_take]; omega)]

theorem pySetSlice_natCast (l : List α) (a b : Nat) (src : List α)
    (hab : a ≤ b) (hb : b ≤ l.length) :
    pySetSlice l (a : Int) (b : Int) src = l.take a ++ src ++ l.drop b := by
  simp only [pySetSlice, sliceIdx_natCast]
  rw [min_eq_left (le_trans hab hb), min_eq_left hb, max_eq_right hab]

theorem pySetSliceFrom_natCast (l : List α) (a : Nat) (src : List α) (ha : a ≤ l.length) :
    pySetSliceFrom l (a : Int) src = l.take a ++ src := by
  unfold pySetSliceFrom
  rw [pySetSlice_natCast l a l.length src ha le_rfl, List.drop_length, List.append_nil]

theorem pyDelSlice_natCast (l : List α) (a b : Nat) (hab : a ≤ b) (hb : b ≤ l.length) :
    pyDelSlice l (a : Int) (b : Int) = l.take a ++ l.drop b := by
  simp only [pyDelSlice, sliceIdx_natCast]
  rw [min_eq_left (le_trans hab hb), min_eq_left hb, max_eq_right hab]

theorem pyInsert_natCast (l : List α) (i : Nat) (x : α) :
    pyInsert l (i : Int) x = l.take i ++ [x] ++ l.drop i := by
  simp only [pyInsert, sliceIdx_natCast, take_min_length, drop_min_length]

theorem pyPop_natCast (l : List α) (i : Nat) :
    pyPop l (i : Int) = l.take i ++ l.drop (i + 1) := by
  simp only [pyPop, sliceIdx_natCast, take_min_length]
  rcases le_total i l.length with h | h
  · rw [min_eq_left h]
  · rw [min_eq_right h, List.drop_of_length_le (by omega),
      List.drop_of_length_le (by omega)]

theorem pyGet_natCast (l : List α) (i : Nat) (dflt : α) :
    pyGet l (i : Int) dflt = l.getD i dflt := by
  unfold pyGet
  rw [if_pos (Int.natCast_nonneg i)]
  simp

theorem pySet_natCast (l : List α) (i : Nat) (x : α) :
    pySet l (i : Int) x = l.set i x := by
  unfold pySet
  rw [if_pos (Int.natCast_nonneg i)]
  simp

/-! ## The `GapBuffer` class (`src/anled.py`, lines 548-623) -/

/-- `GapBuffer.MIN_GAP_SIZE`. -/
def MIN_GAP_SIZE : Nat := 16

/-- A gap buffer state: a byte array and the gap boundaries.
`gap_start`/`gap_end` are Python ints (they can in principle go negative
through the buggy resize path, so they are modelled as `Int`). -/
structure GapBuffer where
  buffer : List Nat
  gap_start : Int
  gap_end : Int
deriving Repr, DecidableEq

namespace GapBuffer

/-- `GapBuffer.__init__(text)`. -/
def init (text : List Char) : GapBuffer :=
  let encoded_text := utf8Encode text
  let initial_gap := max MIN_GAP_SIZE (encoded_text.length / 2)
  let buffer0 : List Nat := List.replicate (encoded_text.length + initial_gap) 0
  let buffer := pySetSlice buffer0 0 (encoded_text.length : Int) encoded_text
  { buffer := buffer
    gap_start := (encoded_text.length : Int)
    gap_end := (buffer.length : Int) }

/-- `GapBuffer.to_string()`. -/
def to_string (gb : GapBuffer) : List Char :=
  utf8Decode (pySliceTo gb.buffer gb.gap_start ++ pySliceFrom gb.buffer gb.gap_end)

/-- `GapBuffer.__len__()`: the character count of the decoded content. -/
def len (gb : GapBuffer) : Nat := gb.to_string.length

/-- `GapBuffer._get_byte_pos(char_pos)`. -/
def _get_byte_pos (gb : GapBuffer) (char_pos : Int) : Nat :=
  (utf8Encode (pySliceTo gb.to_string char_pos)).length

/-- `GapBuffer._resize_if_needed(text_len)`. -/
def _resize_if_needed (gb : GapBuffer) (text_len : Nat) : GapBuffer :=
  if gb.gap_end - gb.gap_start < (text_len : Int) then
    let new_gap_size := max (max MIN_GAP_SIZE text_len) (gb.len / 2)
    let new_buffer_size := gb.len + new_gap_size
    let new_buffer0 : List Nat := List.replicate new_buffer_size 0
    let new_buffer1 := pySetSlice new_buffer0 0 gb.gap_start (pySliceTo gb.buffer gb.gap_start)
    let content_after_len : Int := (gb.buffer.length : Int) - gb.gap_end
    let new_buffer2 := pySetSliceFrom new_buffer1 ((new_buffer_size : Int) - content_after_len)
      (pySliceFrom gb.buffer gb.gap_end)
    { buffer := new_buffer2
      gap_start := gb.gap_start
      gap_end := (new_buffer_size : Int) - content_after_len }
  else gb

/-- `GapBuffer._move_gap(char_pos)`. -/
def _move_gap (gb : GapBuffer) (char_pos : Int) : GapBuffer :=
  let byte_pos : Int := (gb._get_byte_pos char_pos : Int)
  if byte_pos = gb.gap_start then gb
  else
    let gap_size := gb.gap_end - gb.gap_start
    if byte_pos < gb.gap_start then
      let move_len := gb.gap_start - byte_pos
      let buffer := pySetSlice gb.buffer (gb.gap_end - move_len) gb.gap_end
        (pySlice gb.buffer byte_pos gb.gap_start)
      { buffer := buffer, gap_start := byte_pos, gap_end := byte_pos + gap_size }
    else
      let move_len := byte_pos - gb.gap_start
      let buffer := pySetSlice gb.buffer gb.gap_start (gb.gap_start + move_len)
        (pySlice gb.buffer gb.gap_end (gb.gap_end + move_len))
      { buffer := buffer, gap_start := gb.gap_start + move_len,
        gap_end := gb.gap_end + move_len }

/-- `GapBuffer.insert(text, char_pos)`. -/
def insert (gb : GapBuffer) (text : List Char) (char_pos : Int) : GapBuffer :=
  let gb1 := gb._move_gap char_pos
  let encoded_text := utf8Encode text
  let text_len := encoded_text.length
  let gb2 := gb1._resize_if_needed text_len
  { gb2 with
    buffer := pySetSlice gb2.buffer gb2.gap_start (gb2.gap_start + (text_len : Int))
      encoded_text
    gap_start := gb2.gap_start + (text_len : Int) }

/-- `GapBuffer.delete(char_pos, char_len)`. -/
def delete (gb : GapBuffer) (char_pos : Int) (char_len : Int := 1) : GapBuffer :=
  if char_len ≤ 0 then gb
  else
    let start_byte_pos := gb._get_byte_pos char_pos
    let end_byte_pos := gb._get_byte_pos (char_pos + char_len)
    let gb1 := gb._move_gap char_pos
    { gb1 with gap_end := gb1.gap_end + ((end_byte_pos : Int) - (start_byte_pos : Int)) }

/-- `GapBuffer.get_slice(start_char, end_char)` (`none` models Python `None`). -/
def get_slice (gb : GapBuffer) (start_char end_char : Option Int) : List Char :=
  let s := gb.to_string
  let a := match start_char with | none => 0 | some i => sliceIdx s.length i
  let b := match end_char with | none => s.length | some i => sliceIdx s.length i
  (s.take b).drop a

end GapBuffer

/-- The representation invariant relating a `GapBuffer` state to the string
it stores: the gap boundaries are ordered and inside the byte array, and the
bytes outside the gap are exactly the UTF-8 encoding of the string. -/
def Represents (gb : GapBuffer) (cs : List Char) : Prop :=
  0 ≤ gb.gap_start ∧ gb.gap_start ≤ gb.gap_end ∧ gb.gap_end ≤ (gb.buffer.length : Int) ∧
  gb.buffer.take gb.gap_start.toNat ++ gb.buffer.drop gb.gap_end.toNat = utf8Encode cs

instance (gb : GapBuffer) (cs : List Char) : Decidable (Represents gb cs) := by
  unfold Represents
  infer_instance

theorem represents_to_string {gb : GapBuffer} {cs : List Char} (h : Represents gb cs) :
    gb.to_string = cs := by
  obtain ⟨h0, h1, h2, h3⟩ := h
  unfold GapBuffer.to_string
  have e1 : pySliceTo gb.buffer gb.gap_start = gb.buffer.take gb.gap_start.toNat := by
    have e : gb.gap_start = ((gb.gap_start.toNat : Nat) : Int) := by omega
    rw [e, pySliceTo_natCast]
    congr 1
  have e2 : pySliceFrom gb.buffer gb.gap_end = gb.buffer.drop gb.gap_end.toNat := by
    have e : gb.gap_end = ((gb.gap_end.toNat : Nat) : Int) := by omega
    rw [e, pySliceFrom_natCast]
    congr 1
  rw [e1, e2, h3, utf8Decode_utf8Encode]

theorem represents_len {gb : GapBuffer} {cs : List Char} (h : Represents gb cs) :
    gb.len = cs.length := by
  unfold GapBuffer.len
  rw [represents_to_string h]

/-- Under the invariant, `_get_byte_pos` is the byte length of the encoding of
the addressed prefix of the stored string. -/
theorem represents_get_byte_pos {gb : GapBuffer} {cs : List Char} (h : Represents gb cs)
    (pos : Int) :
    gb._get_byte_pos pos = (utf8Encode (cs.take (sliceIdx cs.length pos))).length := by
  unfold GapBuffer._get_byte_pos
  rw [represents_to_string h]
  unfold pySliceTo
  rfl

theorem represents_get_byte_pos_le {gb : GapBuffer} {cs : List Char} (h : Represents gb cs)
    (pos : Int) :
    gb._get_byte_pos pos ≤ (utf8Encode cs).length := by
  rw [represents_get_byte_pos h]
  exact length_utf8Encode_take_le _ _

theorem represents_byte_length {gb : GapBuffer} {cs : List Char} (h : Represents gb cs) :
    (utf8Encode cs).length = gb.gap_start.toNat + (gb.buffer.length - gb.gap_end.toNat) := by
  obtain ⟨h0, h1, h2, h3⟩ := h
  have := congrArg List.length h3
  simp only [List.length_append, List.length_take, List.length_drop] at this
  omega

/-- `_move_gap` under the invariant: the stored string is unchanged, the gap
start lands on the requested byte position, and the gap size and buffer
capacity are preserved. -/
theorem move_gap_spec (gb : GapBuffer) (cs : List Char) (pos : Int)
    (h : Represents gb cs) :
    Represents (gb._move_gap pos) cs ∧
    (gb._move_gap pos).gap_start = (gb._get_byte_pos pos : Int) ∧
    (gb._move_gap pos).gap_end - (gb._move_gap pos).gap_start =
      gb.gap_end - gb.gap_start ∧
    (gb._move_gap pos).buffer.length = gb.buffer.length := by
  obtain ⟨h0, h1, h2, h3⟩ := h
  have hbpB := represents_get_byte_pos_le ⟨h0, h1, h2, h3⟩ pos
  have hBlen := represents_byte_length ⟨h0, h1, h2, h3⟩
  set L := gb.buffer.length with hL
  set G := gb.gap_start.toNat with hG
  set E := gb.gap_end.toNat with hE
  have hgs : gb.gap_start = (G : Int) := by omega
  have hge : gb.gap_end = (E : Int) := by omega
  have hGE : G ≤ E := by omega
  have hEL : E ≤ L := by omega
  set bp := gb._get_byte_pos pos with hbp
  simp only [GapBuffer._move_gap, ← hbp]
  split_ifs with heq hlt
  · exact ⟨⟨h0, h1, h2, h3⟩, heq.symm, rfl, rfl⟩
  · -- gap moves left: byte_pos < gap_start
    have hbpG : bp < G := by omega
    have harg1 : gb.gap_end - (gb.gap_start - (bp : Int)) = ((E - (G - bp) : Nat) : Int) := by
      omega
    have hsrc : pySlice gb.buffer (bp : Int) gb.gap_start = (gb.buffer.take G).drop bp := by
      rw [hgs, pySlice_natCast]
    rw [harg1, hge, hsrc, pySetSlice_natCast _ _ _ _ (by omega) (by omega)]
    have hlen : (gb.buffer.take (E - (G - bp)) ++ (gb.buffer.take G).drop bp ++
        gb.buffer.drop E).length = L := by
      simp only [List.length_append, List.length_take, List.length_drop]
      omega
    unfold Represents
    dsimp only
    refine ⟨⟨?_, ?_, ?_, ?_⟩, rfl, by omega, hlen⟩
    · omega
    · omega
    · rw [hlen]
      omega
    · have ht1 : ((bp : Int)).toNat = bp := by omega
      have ht2 : (((bp : Int)) + ((E : Int) - gb.gap_start)).toNat = bp + (E - G) := by
        omega
      rw [ht1, ht2]
      have hlenA : (gb.buffer.take (E - (G - bp))).length = E - (G - bp) := by
        rw [List.length_take]
        omega
      have e1 : List.take bp (gb.buffer.take (E - (G - bp)) ++ (gb.buffer.take G).drop bp ++
          gb.buffer.drop E) = gb.buffer.take bp := by
        rw [List.take_append_of_le_length (by simp only [List.length_append]; omega),
          List.take_append_of_le_length (by omega), List.take_take]
        congr 1
        omega
      have e2 : List.drop (bp + (E - G)) (gb.buffer.take (E - (G - bp)) ++
          ((gb.buffer.take G).drop bp ++ gb.buffer.drop E)) =
          (gb.buffer.take G).drop bp ++ gb.buffer.drop E := by
        apply List.drop_left'
        omega
      rw [List.append_assoc] at e1 ⊢
      rw [e1, e2, ← List.append_assoc]
      have e3 : gb.buffer.take bp ++ (gb.buffer.take G).drop bp = gb.buffer.take G := by
        have : gb.buffer.take bp = List.take bp (gb.buffer.take G) := by
          rw [List.take_take]
          congr 1
          omega
        rw [this, List.take_append_drop]
      rw [e3, h3]
  · -- gap moves right: byte_pos > gap_start
    have hbpG : G < bp := by omega
    have hbpL : bp ≤ G + (L - E) := by omega
    have harg1 : gb.gap_start + ((bp : Int) - gb.gap_start) = ((bp : Nat) : Int) := by omega
    have harg2 : gb.gap_end + ((bp : Int) - gb.gap_start) = ((E + (bp - G) : Nat) : Int) := by
      omega
    have hsrc : pySlice gb.buffer gb.gap_end (gb.gap_end + ((bp : Int) - gb.gap_start)) =
        (gb.buffer.take (E + (bp - G))).drop E := by
      rw [harg2, hge, pySlice_natCast]
    rw [harg1, hsrc, hgs, pySetSlice_natCast _ _ _ _ (by omega) (by omega)]
    have hsrclen : ((gb.buffer.take (E + (bp - G))).drop E).length = bp - G := by
      simp only [List.length_drop, List.length_take]
      omega
    have hlen : (gb.buffer.take G ++ (gb.buffer.take (E + (bp - G))).drop E ++
        gb.buffer.drop bp).length = L := by
      simp only [List.length_append, List.length_take, List.length_drop]
      omega
    unfold Represents
    dsimp only
    refine ⟨⟨?_, ?_, ?_, ?_⟩, rfl, by omega, hlen⟩
    · omega
    · omega
    · rw [hlen]
      omega
    · have ht1 : ((bp : Int)).toNat = bp := by omega
      have ht2 : (gb.gap_end + ((bp : Int) - (G : Int))).toNat = E + (bp - G) := by omega
      rw [ht1, ht2]
      generalize hS : List.drop E (List.take (E + (bp - G)) gb.buffer) = S at hsrclen ⊢
      have hpre : (gb.buffer.take G ++ S).length = bp := by
        simp only [List.length_append, List.length_take]
        omega
      rw [List.take_left' hpre]
      have e2 : List.drop (E + (bp - G)) ((gb.buffer.take G ++ S) ++ gb.buffer.drop bp) =
          List.drop (E - G) (gb.buffer.drop bp) := by
        rw [show E + (bp - G) = (gb.buffer.take G ++ S).length + (E - G) by
          rw [hpre]; omega]
        exact List.drop_append _
      rw [e2, List.drop_drop, List.append_assoc]
      have hidx : bp + (E - G) = E + (bp - G) := by omega
      rw [hidx]
      have e3 : S ++ gb.buffer.drop (E + (bp - G)) = gb.buffer.drop E := by
        rw [← hS]
        conv_rhs => rw [← List.take_append_drop (E + (bp - G)) gb.buffer]
        rw [List.drop_append_of_le_length (by rw [List.length_take]; omega)]
      rw [e3, h3]

theorem sliceIdx_zero (L : Nat) : sliceIdx L 0 = 0 := by
  unfold sliceIdx
  simp

theorem sliceIdx_nonneg {i : Int} (L : Nat) (h : 0 ≤ i) : sliceIdx L i = min i.toNat L := by
  unfold sliceIdx
  rw [if_pos h]

/-- The resize step of `_resize_if_needed` always allocates (and keeps) at
least `len(self) + max(MIN_GAP_SIZE, text_len, len(self) // 2)` bytes, where
`len(self)` is the character count of the content. -/
theorem resize_length_bound (gb : GapBuffer) (t : Nat)
    (h0 : 0 ≤ gb.gap_start) (h1 : gb.gap_start ≤ gb.gap_end)
    (h2 : gb.gap_end ≤ (gb.buffer.length : Int))
    (htrig : gb.gap_end - gb.gap_start < (t : Int)) :
    gb.len + max (max MIN_GAP_SIZE t) (gb.len / 2) ≤
      (gb._resize_if_needed t).buffer.length := by
  set L := gb.buffer.length with hL
  set G := gb.gap_start.toNat with hG
  set E := gb.gap_end.toNat with hE
  have hgs : gb.gap_start = (G : Int) := by omega
  have hge : gb.gap_end = (E : Int) := by omega
  simp only [GapBuffer._resize_if_needed]
  rw [if_pos htrig]
  dsimp only
  rw [length_pySetSliceFrom, length_pySetSlice]
  have hsrc1 : (pySliceTo gb.buffer gb.gap_start).length = G := by
    rw [hgs, pySliceTo_natCast, List.length_take]
    omega
  have hsrc2 : (pySliceFrom gb.buffer gb.gap_end).length = L - E := by
    rw [hge, pySliceFrom_natCast, List.length_drop]
  rw [hsrc1, hsrc2, hgs]
  simp only [List.length_replicate, sliceIdx_zero, sliceIdx_natCast]
  unfold sliceIdx
  split_ifs <;> omega

theorem resize_gap_start (gb : GapBuffer) (t : Nat) :
    (gb._resize_if_needed t).gap_start = gb.gap_start := by
  unfold GapBuffer._resize_if_needed
  split <;> rfl

/-- Writing `src` into `l[a : a + len(src)]` never shrinks the sequence. -/
theorem length_le_pySetSlice_write (l : List α) (a : Int) (src : List α) (ha : 0 ≤ a) :
    l.length ≤ (pySetSlice l a (a + (src.length : Int)) src).length := by
  rw [length_pySetSlice]
  have h1 := sliceIdx_le l.length a
  have h2 := sliceIdx_le l.length (a + (src.length : Int))
  have h3 : sliceIdx l.length (a + (src.length : Int)) ≤
      sliceIdx l.length a + src.length := by
    unfold sliceIdx
    split_ifs <;> omega
  omega

/-- C3 (gap-buffer growth policy): when `insert` is called with text whose
UTF-8 encoding does not fit in the current gap, the buffer is grown so that
the new capacity is at least the current content length (`len(self)`,
character count) plus `max(MIN_GAP_SIZE, text byte length, len(self) // 2)`. -/
theorem claim_C3_growth_policy (gb : GapBuffer) (cs text : List Char) (pos : Int)
    (h : Represents gb cs)
    (htrig : gb.gap_end - gb.gap_start < ((utf8Encode text).length : Int)) :
    gb.len + max (max MIN_GAP_SIZE (utf8Encode text).length) (gb.len / 2) ≤
      (gb.insert text pos).buffer.length := by
  obtain ⟨hrep1, hbp1, hsize1, hlen1⟩ := move_gap_spec gb cs pos h
  set t := (utf8Encode text).length with ht
  set gb1 := gb._move_gap pos with hgb1
  have hlen_eq : gb1.len = gb.len := by
    unfold GapBuffer.len
    rw [represents_to_string hrep1, represents_to_string h]
  have htrig1 : gb1.gap_end - gb1.gap_start < (t : Int) := by omega
  obtain ⟨g0, g1, g2, _⟩ := hrep1
  have hres := resize_length_bound gb1 t g0 g1 g2 htrig1
  rw [hlen_eq] at hres
  have hws := length_le_pySetSlice_write (gb1._resize_if_needed t).buffer
    (gb1._resize_if_needed t).gap_start (utf8Encode text)
    (by rw [resize_gap_start]; exact g0)
  simp only [GapBuffer.insert]
  exact le_trans hres hws

/-- The constructor establishes the representation invariant. -/
theorem init_represents (text : List Char) : Represents (GapBuffer.init text) text := by
  unfold GapBuffer.init Represents
  dsimp only
  set B := utf8Encode text with hB
  set g := max MIN_GAP_SIZE (B.length / 2) with hg
  have hseteq : pySetSlice (List.replicate (B.length + g) (0 : Nat)) 0 (B.length : Int) B =
      B ++ List.replicate g 0 := by
    rw [show (0 : Int) = ((0 : Nat) : Int) from rfl,
      pySetSlice_natCast _ 0 B.length _ (by omega) (by simp),
      List.take_replicate, List.drop_replicate]
    simp
  rw [hseteq]
  have hlen : (B ++ List.replicate g (0 : Nat)).length = B.length + g := by simp
  refine ⟨by positivity, by exact_mod_cast by omega, by omega, ?_⟩
  rw [hlen]
  have ht1 : ((B.length : Int)).toNat = B.length := by omega
  have ht2 : (((B.length + g : Nat) : Int)).toNat = B.length + g := by omega
  rw [ht1, ht2, List.take_left' rfl, List.drop_of_length_le (by rw [hlen]), List.append_nil]

/-- `delete` under the invariant implements the splice
`s[:pos] ++ s[pos+k:]` on the stored string (for a positive count). -/
theorem delete_spec (gb : GapBuffer) (cs : List Char) (pos k : Int)
    (h : Represents gb cs) (hpos : 0 ≤ pos) (hk : 1 ≤ k) :
    Represents (gb.delete pos k)
      (cs.take pos.toNat ++ cs.drop (pos.toNat + k.toNat)) := by
  set p := pos.toNat with hp
  set kk := k.toNat with hkk
  have hstart : gb._get_byte_pos pos = (utf8Encode (cs.take p)).length := by
    rw [represents_get_byte_pos h, sliceIdx_nonneg _ hpos, take_min_length]
  have hqq : (pos + k).toNat = p + kk := by omega
  have hend : gb._get_byte_pos (pos + k) = (utf8Encode (cs.take (p + kk))).length := by
    rw [represents_get_byte_pos h, sliceIdx_nonneg _ (by omega), hqq, take_min_length]
  have hsplit1 : utf8Encode (cs.take (p + kk)) =
      utf8Encode (cs.take p) ++ utf8Encode ((cs.drop p).take kk) := by
    rw [← utf8Encode_append, ← List.take_add]
  have hsplit2 : utf8Encode (cs.drop p) =
      utf8Encode ((cs.drop p).take kk) ++ utf8Encode (cs.drop (p + kk)) := by
    rw [← utf8Encode_append,
      show cs.drop (p + kk) = (cs.drop p).drop kk from (List.drop_drop kk p cs).symm,
      List.take_append_drop]
  obtain ⟨hrep1, hbp1, hsize1, hlen1⟩ := move_gap_spec gb cs pos h
  set gb1 := gb._move_gap pos with hgb1
  obtain ⟨g0, g1, g2, g3⟩ := hrep1
  set SB := (utf8Encode (cs.take p)).length with hSB
  set D := (utf8Encode ((cs.drop p).take kk)).length with hD
  set E1 := gb1.gap_end.toNat with hE1
  set L1 := gb1.buffer.length with hL1
  have hgs1 : gb1.gap_start = (SB : Int) := by rw [hbp1, hstart]
  have hge1 : gb1.gap_end = (E1 : Int) := by omega
  have hBlen := represents_byte_length ⟨g0, g1, g2, g3⟩
  rw [hgs1] at hBlen
  have hencsplit : (utf8Encode cs).length = SB + (utf8Encode (cs.drop p)).length := by
    conv_lhs => rw [← utf8Encode_take_append_drop p cs]
    simp
  have hdropsplit : (utf8Encode (cs.drop p)).length = D + (utf8Encode (cs.drop (p + kk))).length := by
    rw [hsplit2]
    simp
  have hd : (gb._get_byte_pos (pos + k) : Int) - (gb._get_byte_pos pos : Int) = (D : Int) := by
    rw [hend, hstart, hsplit1]
    simp only [List.length_append]
    push_cast
    ring_nf
  simp only [GapBuffer.delete]
  rw [if_neg (by omega)]
  unfold Represents
  dsimp only
  rw [← hgb1, hd, hgs1, hge1]
  have hSBtoNat : ((SB : Int)).toNat = SB := by omega
  have hEDtoNat : (((E1 : Nat) : Int) + (D : Int)).toNat = E1 + D := by omega
  have hSBL : SB ≤ L1 := by omega
  refine ⟨by positivity, by omega, ?_, ?_⟩
  · have : D ≤ L1 - E1 := by omega
    omega
  · rw [hSBtoNat, hEDtoNat, utf8Encode_append]
    have hcontent := g3
    rw [hgs1, hSBtoNat] at hcontent
    have hlenA : (gb1.buffer.take SB).length = SB := by
      rw [List.length_take]
      omega
    have hencX := utf8Encode_take_append_drop p cs
    have hinj := List.append_inj (hcontent.trans hencX.symm) (by rw [hlenA])
    have e1 : gb1.buffer.take SB = utf8Encode (cs.take p) := hinj.1
    have e2 : gb1.buffer.drop E1 = utf8Encode (cs.drop p) := hinj.2
    have e3 : gb1.buffer.drop (E1 + D) = utf8Encode (cs.drop (p + kk)) := by
      rw [← List.drop_drop D E1, e2, hsplit2]
      exact List.drop_left' (by rw [← hD])
    rw [e1, e3]

theorem sliceIdx_ge_length (L : Nat) {i : Int} (h : (L : Int) ≤ i) : sliceIdx L i = L := by
  unfold sliceIdx
  rw [if_pos (by omega), min_eq_right (by omega)]

theorem get_byte_pos_clamp (gb : GapBuffer) (pos : Int) (hpos : (gb.len : Int) ≤ pos) :
    gb._get_byte_pos pos = gb._get_byte_pos (gb.len : Int) := by
  unfold GapBuffer._get_byte_pos GapBuffer.len at *
  unfold pySliceTo
  congr 2
  rw [sliceIdx_ge_length _ hpos, sliceIdx_ge_length _ le_rfl]

/-- `insert` at a character position at or beyond the content length behaves
exactly like `insert` at the content length (the position is clamped). -/
theorem insert_pos_clamp (gb : GapBuffer) (text : List Char) (pos : Int)
    (hpos : (gb.len : Int) ≤ pos) :
    gb.insert text pos = gb.insert text (gb.len : Int) := by
  have hbp := get_byte_pos_clamp gb pos hpos
  unfold GapBuffer.insert GapBuffer._move_gap
  rw [hbp]

theorem delete_nonpositive (gb : GapBuffer) (pos k : Int) (hk : k ≤ 0) :
    gb.delete pos k = gb := by
  unfold GapBuffer.delete
  rw [if_pos hk]

theorem represents_get_slice (gb : GapBuffer) (cs : List Char) (a b : Nat)
    (h : Represents gb cs) :
    gb.get_slice (some (a : Int)) (some (b : Int)) = (cs.take b).drop a := by
  unfold GapBuffer.get_slice
  dsimp only
  rw [represents_to_string h, sliceIdx_natCast, sliceIdx_natCast, take_min_length]
  rcases le_total a cs.length with hle | hle
  · rw [min_eq_left hle]
  · rw [min_eq_right hle,
      List.drop_of_length_le (le_trans (by rw [List.length_take]; omega) hle),
      List.drop_of_length_le (by rw [List.length_take]; omega)]

/-! ## GapBuffer claims -/

/-- The reachable state `GapBuffer('')` then `insert('é'*8, 0)`: the stored
string is `'é' * 8` (8 characters, 16 bytes), and the gap is exhausted. -/
def c1_state1 : GapBuffer := (GapBuffer.init []).insert (List.replicate 8 'é') 0

/-- `c1_state1` then `insert('é'*8, 8)` (an insert at the valid position
`8 = len(buffer)`), which triggers the size-conflating resize. -/
def c1_state2 : GapBuffer := c1_state1.insert (List.replicate 8 'é') 8

/-- C1 (gap-buffer round-trip, code bug): after the valid operation sequence
`GapBuffer('')`, `insert('é'*8, 0)`, `insert('é'*8, 8)`, the naive
string-splicing reference model yields `'é' * 16`, but
`get_slice(0, len(buffer))` yields `'é' * 20`: `_resize_if_needed` sizes the
new buffer from the character count `len(self)` where byte counts are needed,
the gap ends up smaller than the encoded text, and the write
`buffer[gap_start : gap_start + text_len]` grows the bytearray past
`gap_end`, duplicating content. -/
theorem claim_C1_roundtrip_code_bug :
    ((GapBuffer.init []).len = 0 ∧ c1_state1.to_string = List.replicate 8 'é') ∧
    List.take 8 c1_state1.to_string ++ List.replicate 8 'é' ++
      List.drop 8 c1_state1.to_string = List.replicate 16 'é' ∧
    c1_state2.get_slice (some 0) (some (c1_state2.len : Int)) = List.replicate 20 'é' ∧
    (List.replicate 20 'é' : List Char) ≠ List.replicate 16 'é' := by decide

/-- C3 witness input: `GapBuffer('a')` has a 16-byte gap, so inserting 17
ASCII characters triggers the growth path. -/
theorem claim_C3_growth_policy_witness :
    Represents (GapBuffer.init ['a']) ['a'] ∧
    (GapBuffer.init ['a']).gap_end - (GapBuffer.init ['a']).gap_start <
      ((utf8Encode (List.replicate 17 'x')).length : Int) ∧
    (GapBuffer.init ['a']).len +
        max (max MIN_GAP_SIZE (utf8Encode (List.replicate 17 'x')).length)
          ((GapBuffer.init ['a']).len / 2) ≤
      ((GapBuffer.init ['a']).insert (List.replicate 17 'x') 1).buffer.length :=
  ⟨init_represents ['a'], by decide,
    claim_C3_growth_policy (GapBuffer.init ['a']) ['a'] (List.replicate 17 'x') 1
      (init_represents ['a']) (by decide)⟩

/-- The reachable state `GapBuffer('é'*40)` then `insert('x'*39, 0)`:
a well-formed state (`Represents` holds) whose gap has shrunk to one byte. -/
def c9_state : GapBuffer :=
  (GapBuffer.init (List.replicate 40 'é')).insert (List.replicate 39 'x') 0

set_option maxRecDepth 4000 in
/-- C9 (frame effect of `_resize_if_needed`, code bug): on the reachable
well-formed state `c9_state` (string `'x'*39 ++ 'é'*40`, 1-byte gap),
`_resize_if_needed(2)` — as triggered by inserting one `'é'` — changes
`to_string()`: the new buffer is sized from the character count 79 where the
content occupies 119 bytes, so the tail assignment overlaps the head content
and one byte of content is lost.  (`_move_gap`, by contrast, does preserve
`to_string()` on every well-formed state: see `move_gap_spec`.) -/
theorem claim_C9_resize_code_bug :
    Represents c9_state (List.replicate 39 'x' ++ List.replicate 40 'é') ∧
    c9_state.gap_end - c9_state.gap_start < (((utf8Encode ['é']).length : Nat) : Int) ∧
    (c9_state._resize_if_needed (utf8Encode ['é']).length).to_string ≠
      c9_state.to_string := by
  decide

/-- C10 counterexample: inserting at character position `9 > len(buffer) = 8`
on the 8-character state `c1_state1` does **not** append the text at the end
(the same resize bug as C1 corrupts the buffer), refuting the claim's
"appends at the end" clause as stated. -/
theorem claim_C10_clamp_counterexample :
    c1_state1.len = 8 ∧
    (c1_state1.insert (List.replicate 8 'é') 9).to_string ≠
      c1_state1.to_string ++ List.replicate 8 'é' := by decide

/-- C10 (amended): out-of-range positions are clamped:
(a) `insert` at a position beyond the content length behaves exactly as
`insert` at the content length;
(b) `delete` with a range extending past the end deletes only up to the end;
(c) `get_slice` with out-of-range bounds returns the clamped substring;
(d) `delete` with `char_len ≤ 0` leaves the buffer unchanged.
All four operations are total functions of the embedding (no error paths). -/
theorem claim_C10_clamping_amended :
    (∀ (gb : GapBuffer) (text : List Char) (pos : Int), (gb.len : Int) ≤ pos →
      gb.insert text pos = gb.insert text (gb.len : Int)) ∧
    (∀ (gb : GapBuffer) (cs : List Char) (pos k : Int), Represents gb cs →
      0 ≤ pos → 1 ≤ k → (cs.length : Int) ≤ pos + k →
      (gb.delete pos k).to_string = cs.take pos.toNat) ∧
    (∀ (gb : GapBuffer) (cs : List Char) (a b : Nat), Represents gb cs →
      gb.get_slice (some (a : Int)) (some (b : Int)) = (cs.take b).drop a) ∧
    (∀ (gb : GapBuffer) (pos k : Int), k ≤ 0 → gb.delete pos k = gb) := by
  refine ⟨insert_pos_clamp, ?_, represents_get_slice, delete_nonpositive⟩
  intro gb cs pos k h hpos hk hpast
  rw [represents_to_string (delete_spec gb cs pos k h hpos hk),
    List.drop_of_length_le (by omega), List.append_nil]

/-- C10 amended witness: clamping evaluated on `GapBuffer('abc')`. -/
theorem claim_C10_clamping_amended_witness :
    (GapBuffer.init ['a', 'b']).insert ['z'] 5 =
      (GapBuffer.init ['a', 'b']).insert ['z'] (((GapBuffer.init ['a', 'b']).len : Nat) : Int) ∧
    ((GapBuffer.init ['a', 'b', 'c']).delete 1 7).to_string = ['a'] ∧
    (GapBuffer.init ['a', 'b', 'c']).get_slice (some ((1 : Nat) : Int))
      (some ((99 : Nat) : Int)) = ['b', 'c'] ∧
    (GapBuffer.init ['a', 'b', 'c']).delete 1 0 = GapBuffer.init ['a', 'b', 'c'] := by
  refine ⟨claim_C10_clamping_amended.1 _ ['z'] 5 (by decide), ?_, ?_,
    claim_C10_clamping_amended.2.2.2 _ 1 0 (by decide)⟩
  · exact (claim_C10_clamping_amended.2.1 (GapBuffer.init ['a', 'b', 'c'])
      ['a', 'b', 'c'] 1 7 (init_represents _) (by decide) (by decide) (by decide)).trans
      (by decide)
  · exact (claim_C10_clamping_amended.2.2.1 (GapBuffer.init ['a', 'b', 'c'])
      ['a', 'b', 'c'] 1 99 (init_represents _)).trans (by decide)

/-! ## The logical key alphabet and the `KeyDecoder` Unix backend
(`src/anled.py`, lines 377-545) -/

/-- The `Key` enumeration (`class Key(Enum)`). -/
inductive Key where
  | CTRL_A | CTRL_C | CTRL_D | CTRL_E | CTRL_F | CTRL_G | CTRL_H | CTRL_L
  | CTRL_N | CTRL_P | CTRL_Q | CTRL_S | CTRL_V | CTRL_X | CTRL_Y
  | ENTER | ESCAPE | BACKSPACE | TAB
  | UP | DOWN | LEFT | RIGHT | HOME | END | DELETE | PAGE_UP | PAGE_DOWN | INSERT
  | SHIFT_UP | SHIFT_DOWN | SHIFT_LEFT | SHIFT_RIGHT | SHIFT_HOME | SHIFT_END
  | SHIFT_PAGE_UP | SHIFT_PAGE_DOWN | SHIFT_INSERT | SHIFT_DELETE
  | CTRL_LEFT | CTRL_RIGHT | CTRL_HOME | CTRL_END | CTRL_UP | CTRL_DOWN
  | CTRL_INSERT | CTRL_DELETE
  | CTRL_SHIFT_LEFT | CTRL_SHIFT_RIGHT | CTRL_SHIFT_HOME | CTRL_SHIFT_END
  | CTRL_SHIFT_UP | CTRL_SHIFT_DOWN | CTRL_SHIFT_INSERT | CTRL_SHIFT_DELETE
  | CTRL_0 | CTRL_1 | CTRL_2 | CTRL_3 | CTRL_4 | CTRL_5 | CTRL_6 | CTRL_7
  | CTRL_8 | CTRL_9
  | F1 | F2
  | UNKNOWN
  | CHAR
deriving Repr, DecidableEq

/-- `KeyDecoder.__init__`'s `self.key_map`: the escape-sequence table. -/
def key_map : List (List Char × Key) := [
  ("\x1b[A".data, Key.UP), ("\x1b[B".data, Key.DOWN),
  ("\x1b[C".data, Key.RIGHT), ("\x1b[D".data, Key.LEFT),
  ("\x1b[H".data, Key.HOME), ("\x1b[F".data, Key.END),
  ("\x1b[2~".data, Key.INSERT), ("\x1b[3~".data, Key.DELETE),
  ("\x1b[5~".data, Key.PAGE_UP), ("\x1b[6~".data, Key.PAGE_DOWN),
  ("\x1b[11~".data, Key.F1), ("\x1bOP".data, Key.F1),
  ("\x1b[12~".data, Key.F2), ("\x1bOQ".data, Key.F2),
  ("\x1b[1;2A".data, Key.SHIFT_UP), ("\x1b[1;2B".data, Key.SHIFT_DOWN),
  ("\x1b[1;2C".data, Key.SHIFT_RIGHT), ("\x1b[1;2D".data, Key.SHIFT_LEFT),
  ("\x1b[1;2H".data, Key.SHIFT_HOME), ("\x1b[1;2F".data, Key.SHIFT_END),
  ("\x1b[2;2~".data, Key.SHIFT_INSERT), ("\x1b[3;2~".data, Key.SHIFT_DELETE),
  ("\x1b[1;5A".data, Key.CTRL_UP), ("\x1b[1;5B".data, Key.CTRL_DOWN),
  ("\x1b[1;5C".data, Key.CTRL_RIGHT), ("\x1b[1;5D".data, Key.CTRL_LEFT),
  ("\x1b[1;5H".data, Key.CTRL_HOME), ("\x1b[1;5F".data, Key.CTRL_END),
  ("\x1b[2;5~".data, Key.CTRL_INSERT), ("\x1b[3;5~".data, Key.CTRL_DELETE),
  ("\x1b[1;6A".data, Key.CTRL_SHIFT_UP), ("\x1b[1;6B".data, Key.CTRL_SHIFT_DOWN),
  ("\x1b[1;6C".data, Key.CTRL_SHIFT_RIGHT), ("\x1b[1;6D".data, Key.CTRL_SHIFT_LEFT),
  ("\x1b[1;6H".data, Key.CTRL_SHIFT_HOME), ("\x1b[1;6F".data, Key.CTRL_SHIFT_END),
  ("\x1b[2;6~".data, Key.CTRL_SHIFT_INSERT), ("\x1b[3;6~".data, Key.CTRL_SHIFT_DELETE)]

/-- Python `self.key_map.get(seq, default)` (dict lookup). -/
def key_map_get (seq : List Char) : Option Key :=
  (key_map.find? (fun p => p.1 = seq)).map Prod.snd

/-- `str.isprintable()` modelled on the code points a terminal key produces
(ASCII and Latin-1; the general-Unicode categories are immaterial to every
claim, which only exercise the escape branch). -/
def pyIsPrintable (c : Char) : Bool :=
  decide (0x20 ≤ c.toNat ∧ c.toNat ≠ 0x7f ∧ ¬(0x80 ≤ c.toNat ∧ c.toNat ≤ 0xa0))

/-- `KeyDecoder._map_single_char(char)`. -/
def _map_single_char (char : Char) : Key × Option Char :=
  if char = '\r' ∨ char = '\n' then (Key.ENTER, none)
  else if char = '\x7f' ∨ char = '\x08' then (Key.BACKSPACE, none)
  else if char = '\t' then (Key.TAB, none)
  else if char = '\x1b' then (Key.ESCAPE, none)
  else if char = '\x01' then (Key.CTRL_A, none)
  else if char = '\x03' then (Key.CTRL_C, none)
  else if char = '\x04' then (Key.CTRL_D, none)
  else if char = '\x05' then (Key.CTRL_E, none)
  else if char = '\x06' then (Key.CTRL_F, none)
  else if char = '\x07' then (Key.CTRL_G, none)
  else if char = '\x08' then (Key.CTRL_H, none)
  else if char = '\x0c' then (Key.CTRL_L, none)
  else if char = '\x0e' then (Key.CTRL_N, none)
  else if char = '\x10' then (Key.CTRL_P, none)
  else if char = '\x11' then (Key.CTRL_Q, none)
  else if char = '\x13' then (Key.CTRL_S, none)
  else if char = '\x16' then (Key.CTRL_V, none)
  else if char = '\x18' then (Key.CTRL_X, none)
  else if char = '\x19' then (Key.CTRL_Y, none)
  else if pyIsPrintable char then (Key.CHAR, some char)
  else (Key.UNKNOWN, none)

/-- `KeyDecoder._get_key_unix()`. `first` is the blocking 1-byte read;
`lookahead` is what the non-blocking `read(5)` returned after an escape byte
(`[]` when nothing was immediately available). -/
def _get_key_unix (first : Char) (lookahead : List Char) : Key × Option Char :=
  if first ≠ '\x1b' then _map_single_char first
  else
    let seq := if lookahead ≠ [] then first :: lookahead else [first]
    if seq = ['\x1b'] then (Key.ESCAPE, none)
    else ((key_map_get seq).getD Key.UNKNOWN, none)

/-- C6 (Unix escape disambiguation): after reading the escape byte,
an empty non-blocking look-ahead yields the bare Escape key; a non-empty
look-ahead whose full sequence is not in the escape table yields the
"unknown" key; a full sequence in the table yields the mapped key. -/
theorem claim_C6_escape_disambiguation (lookahead : List Char)
    (hlen : lookahead.length ≤ 5) :
    (lookahead = [] → _get_key_unix '\x1b' lookahead = (Key.ESCAPE, none)) ∧
    (lookahead ≠ [] → key_map_get ('\x1b' :: lookahead) = none →
      _get_key_unix '\x1b' lookahead = (Key.UNKNOWN, none)) ∧
    (∀ k : Key, key_map_get ('\x1b' :: lookahead) = some k →
      _get_key_unix '\x1b' lookahead = (k, none)) := by
  refine ⟨?_, ?_, ?_⟩
  · intro h
    subst h
    rfl
  · intro hne hnone
    unfold _get_key_unix
    rw [if_neg (by simp)]
    dsimp only
    rw [if_pos hne, if_neg (by simp [hne]), hnone]
    rfl
  · intro k hk
    unfold _get_key_unix
    have hne : lookahead ≠ [] := by
      intro h
      subst h
      simp [key_map_get, key_map] at hk
    rw [if_neg (by simp)]
    dsimp only
    rw [if_pos hne, if_neg (by simp [hne]), hk]
    rfl

/-- C6 witness: a bare escape, the unmatched sequence `ESC [ Z`, and the
matched cursor-up sequence `ESC [ A`. -/
theorem claim_C6_escape_disambiguation_witness :
    _get_key_unix '\x1b' [] = (Key.ESCAPE, none) ∧
    _get_key_unix '\x1b' ['[', 'Z'] = (Key.UNKNOWN, none) ∧
    _get_key_unix '\x1b' ['[', 'A'] = (Key.UP, none) := by
  refine ⟨(claim_C6_escape_disambiguation [] (by decide)).1 rfl, ?_, ?_⟩
  · exact (claim_C6_escape_disambiguation ['[', 'Z'] (by decide)).2.1 (by decide) (by decide)
  · exact (claim_C6_escape_disambiguation ['[', 'A'] (by decide)).2.2 Key.UP (by decide)

/-! ## The `Editor` (`src/anled.py`, lines 625-1114)

The model fixes `IS_UNIX = True`: paste uses the in-process clipboard and
copy does not push to a platform clipboard.  Interactive I/O (prompt
answers, terminal height, file existence, write outcome) enters through
explicit environment records. -/

/-- The action identifiers of `DEFAULT_KEY_BINDINGS` (Python strings). -/
inductive EditorAction where
  | quit | save | toggle_help | copy | cut | paste
  | move_up | move_down | move_left | move_right | move_home | move_end
  | move_page_up | move_page_down | move_prev_word | move_next_word
  | move_doc_start | move_doc_end
  | delete_back | delete_forward | insert_newline | insert_char
deriving Repr, DecidableEq

/-- `self.action_map`: the inversion of `DEFAULT_KEY_BINDINGS`
(key → action). -/
def action_map : Key → Option EditorAction
  | .CTRL_Q => some .quit
  | .ESCAPE => some .quit
  | .CTRL_S => some .save
  | .F2 => some .save
  | .F1 => some .toggle_help
  | .CTRL_H => some .toggle_help
  | .CTRL_C => some .copy
  | .CTRL_INSERT => some .copy
  | .CTRL_X => some .cut
  | .SHIFT_DELETE => some .cut
  | .CTRL_V => some .paste
  | .SHIFT_INSERT => some .paste
  | .UP => some .move_up
  | .SHIFT_UP => some .move_up
  | .CTRL_UP => some .move_up
  | .CTRL_SHIFT_UP => some .move_up
  | .DOWN => some .move_down
  | .SHIFT_DOWN => some .move_down
  | .CTRL_DOWN => some .move_down
  | .CTRL_SHIFT_DOWN => some .move_down
  | .LEFT => some .move_left
  | .SHIFT_LEFT => some .move_left
  | .RIGHT => some .move_right
  | .SHIFT_RIGHT => some .move_right
  | .HOME => some .move_home
  | .SHIFT_HOME => some .move_home
  | .END => some .move_end
  | .SHIFT_END => some .move_end
  | .PAGE_UP => some .move_page_up
  | .SHIFT_PAGE_UP => some .move_page_up
  | .PAGE_DOWN => some .move_page_down
  | .SHIFT_PAGE_DOWN => some .move_page_down
  | .CTRL_LEFT => some .move_prev_word
  | .CTRL_SHIFT_LEFT => some .move_prev_word
  | .CTRL_RIGHT => some .move_next_word
  | .CTRL_SHIFT_RIGHT => some .move_next_word
  | .CTRL_HOME => some .move_doc_start
  | .CTRL_SHIFT_HOME => some .move_doc_start
  | .CTRL_END => some .move_doc_end
  | .CTRL_SHIFT_END => some .move_doc_end
  | .BACKSPACE => some .delete_back
  | .DELETE => some .delete_forward
  | .ENTER => some .insert_newline
  | .CHAR => some .insert_char
  | _ => none

/-- `self._plain_movement_keys`: movement-bound keys without SHIFT in the
name. -/
def isPlainMovementKey : Key → Bool
  | .UP | .DOWN | .LEFT | .RIGHT | .HOME | .END | .PAGE_UP | .PAGE_DOWN
  | .CTRL_LEFT | .CTRL_RIGHT | .CTRL_HOME | .CTRL_END | .CTRL_UP
  | .CTRL_DOWN => true
  | _ => false

/-- `self._shift_movement_keys`: movement-bound keys with SHIFT in the
name. -/
def isShiftMovementKey : Key → Bool
  | .SHIFT_UP | .SHIFT_DOWN | .SHIFT_LEFT | .SHIFT_RIGHT | .SHIFT_HOME
  | .SHIFT_END | .SHIFT_PAGE_UP | .SHIFT_PAGE_DOWN | .CTRL_SHIFT_LEFT
  | .CTRL_SHIFT_RIGHT | .CTRL_SHIFT_HOME | .CTRL_SHIFT_END | .CTRL_SHIFT_UP
  | .CTRL_SHIFT_DOWN => true
  | _ => false

/-- The `Editor` state (the fields `__init__` sets; the key decoder and
binding tables are the fixed defaults above). -/
structure EditorState where
  filename : Option (List Char)
  in_memory : Bool
  buffer : List GapBuffer
  cursor_x : Int
  cursor_y : Int
  top_line : Int
  col_offset : Int
  running : Bool
  is_dirty : Bool
  status_message : List Char
  help_mode : Bool
  selection_start_x : Int
  selection_start_y : Int
  is_selecting : Bool
  clipboard : List Char
deriving Repr, DecidableEq

/-- Outcomes of the I/O performed by `save_file`: the two prompts, the
`os.path.exists` test, and the file write (`some e` models an `OSError`
with message `e`). -/
structure SaveEnv where
  promptSaveAs : Option (List Char)
  promptOverwrite : Option (List Char)
  fileExists : Bool
  writeError : Option (List Char)
deriving Repr, DecidableEq

/-- Environment of one `handle_keypress` call: the terminal height (for
page movement), the quit-prompt answer, and the save environment. -/
structure KeyEnv where
  termHeight : Int
  promptQuitSave : Option (List Char)
  save : SaveEnv
deriving Repr, DecidableEq

/-- Placeholder line for the unreachable out-of-range indexing paths. -/
def defaultLine : GapBuffer := GapBuffer.init []

/-- `str(self.buffer[y])`. -/
def lineAt (ed : EditorState) (y : Int) : List Char :=
  (pyGet ed.buffer y defaultLine).to_string

/-- The default status message set at the top of `handle_keypress`. -/
def helpStatus : List Char :=
  "HELP: Ctrl-S save | Ctrl-Q quit | F1/Ctrl-H help".data

/-- `Editor.__init__`: `loaded` is the newline-stripped line list when a
backing file was opened (`none` for a missing file or in-memory session). -/
def editor_init (filename : Option (List Char)) (in_memory : Bool)
    (loaded : Option (List (List Char))) : EditorState :=
  let buffer0 := match loaded with
    | some ls => ls.map GapBuffer.init
    | none => []
  let buffer := if buffer0.isEmpty then [GapBuffer.init []] else buffer0
  { filename := filename
    in_memory := in_memory
    buffer := buffer
    cursor_x := 0
    cursor_y := 0
    top_line := 0
    col_offset := 0
    running := true
    is_dirty := false
    status_message := helpStatus
    help_mode := false
    selection_start_x := -1
    selection_start_y := -1
    is_selecting := false
    clipboard := [] }

/-- `Editor.clamp_cursor()`. -/
def clamp_cursor (ed : EditorState) : EditorState :=
  let ed := { ed with cursor_y := max 0 (min ed.cursor_y ((ed.buffer.length : Int) - 1)) }
  { ed with cursor_x := max 0 (min ed.cursor_x ((lineAt ed ed.cursor_y).length : Int)) }

/-- `Editor.get_selection()`. -/
def get_selection (ed : EditorState) : Option (Int × Int × Int × Int) :=
  if ¬ed.is_selecting ∨ ed.selection_start_y = -1 then none
  else
    let start_y := min ed.selection_start_y ed.cursor_y
    let end_y := max ed.selection_start_y ed.cursor_y
    if ed.selection_start_y = ed.cursor_y then
      some (start_y, min ed.selection_start_x ed.cursor_x, end_y,
        max ed.selection_start_x ed.cursor_x)
    else if ed.selection_start_y < ed.cursor_y then
      some (start_y, ed.selection_start_x, end_y, ed.cursor_x)
    else
      some (start_y, ed.cursor_x, end_y, ed.selection_start_x)

/-- `"\n".join(lines)`. -/
def joinNL : List (List Char) → List Char
  | [] => []
  | [l] => l
  | l :: ls => l ++ '\n' :: joinNL ls

/-- `text.split('\n')` (always a non-empty list). -/
def splitNL : List Char → List (List Char)
  | [] => [[]]
  | c :: rest =>
    match splitNL rest with
    | [] => [[]]
    | s :: ss => if c = '\n' then [] :: s :: ss else (c :: s) :: ss

/-- `Editor.copy_selection()` (Unix: no platform-clipboard push). -/
def copy_selection (ed : EditorState) : EditorState :=
  match get_selection ed with
  | none => ed
  | some (start_y, start_x, end_y, end_x) =>
    let clip :=
      if start_y = end_y then
        (pyGet ed.buffer start_y defaultLine).get_slice (some start_x) (some end_x)
      else
        let first := (pyGet ed.buffer start_y defaultLine).get_slice (some start_x) none
        let middle := (pySlice ed.buffer (start_y + 1) end_y).map GapBuffer.to_string
        let last := (pyGet ed.buffer end_y defaultLine).get_slice (some 0) (some end_x)
        joinNL (first :: (middle ++ [last]))
    { ed with clipboard := clip, status_message := "Copied to clipboard.".data }

/-- `Editor.delete_selection()`. -/
def delete_selection (ed : EditorState) : EditorState :=
  match get_selection ed with
  | none => ed
  | some (start_y, start_x, end_y, end_x) =>
    let ed :=
      if start_y = end_y then
        { ed with
          buffer := pySet ed.buffer start_y
            ((pyGet ed.buffer start_y defaultLine).delete start_x (end_x - start_x))
          cursor_x := start_x }
      else
        let first_line_slice :=
          (pyGet ed.buffer start_y defaultLine).get_slice (some 0) (some start_x)
        let last_line_slice :=
          (pyGet ed.buffer end_y defaultLine).get_slice (some end_x) none
        let buffer1 := pySet ed.buffer start_y
          (GapBuffer.init (first_line_slice ++ last_line_slice))
        let buffer2 := pyDelSlice buffer1 (start_y + 1) (end_y + 1)
        { ed with buffer := buffer2, cursor_x := start_x }
    { ed with cursor_y := start_y, is_dirty := true, is_selecting := false }

/-- `str.isspace()` for the characters a document line can contain. -/
def pyIsSpace (c : Char) : Bool :=
  c == ' ' || c == '\t' || c == '\n' || c == '\r' || c == '\x0b' || c == '\x0c'

/-- Length of the maximal prefix satisfying `p` (the `while` scans). -/
def countWhile (p : Char → Bool) : List Char → Nat
  | [] => 0
  | c :: cs => if p c then countWhile p cs + 1 else 0

/-- `while x > 0 and p(line[x-1]): x -= 1`. -/
def skipBackWhile (line : List Char) (p : Char → Bool) : Nat → Nat
  | 0 => 0
  | x + 1 => if p (line.getD x ' ') then skipBackWhile line p x else x + 1

/-- `Editor._find_next_word()`. -/
def _find_next_word (ed : EditorState) : EditorState :=
  let line := lineAt ed ed.cursor_y
  let x0 := ed.cursor_x.toNat
  let x1 := x0 + countWhile (fun c => !pyIsSpace c) (line.drop x0)
  let x2 := x1 + countWhile pyIsSpace (line.drop x1)
  if line.length ≤ x2 then
    if ed.cursor_y < (ed.buffer.length : Int) - 1 then
      { ed with cursor_y := ed.cursor_y + 1, cursor_x := 0 }
    else { ed with cursor_x := (line.length : Int) }
  else { ed with cursor_x := (x2 : Int) }

/-- `Editor._find_prev_word()`. -/
def _find_prev_word (ed : EditorState) : EditorState :=
  if ed.cursor_x = 0 ∧ 0 < ed.cursor_y then
    let ed := { ed with cursor_y := ed.cursor_y - 1 }
    { ed with cursor_x := ((lineAt ed ed.cursor_y).length : Int) }
  else
    let line := lineAt ed ed.cursor_y
    let x0 := (ed.cursor_x - 1).toNat
    let x1 := skipBackWhile line pyIsSpace x0
    let x2 := skipBackWhile line (fun c => !pyIsSpace c) x1
    { ed with cursor_x := (x2 : Int) }

/-- `str.lower()` (ASCII case fold, all the prompts compare against
ASCII letters). -/
def toLowerStr (l : List Char) : List Char := l.map Char.toLower

/-- The final write of `Editor.save_file` (`try: open/write ...`). -/
def save_file_write (ed : EditorState) (fn : List Char) (env : SaveEnv) :
    EditorState × Bool :=
  match env.writeError with
  | some e => ({ ed with status_message := "Error saving: ".data ++ e }, false)
  | none =>
    ({ ed with
        is_dirty := false,
        status_message := "Saved ".data ++ (Nat.repr ed.buffer.length).data ++
          " lines to \"".data ++ fn ++ "\".".data }, true)

/-- The overwrite-confirmation stage of `Editor.save_file`. -/
def save_file_named (ed : EditorState) (fn : List Char) (env : SaveEnv) :
    EditorState × Bool :=
  if env.fileExists then
    match env.promptOverwrite with
    | none => ({ ed with status_message := "Save cancelled.".data }, false)
    | some overwrite =>
      if (toLowerStr overwrite).take 1 = ['y'] then save_file_write ed fn env
      else ({ ed with status_message := "Save cancelled.".data }, false)
  else save_file_write ed fn env

/-- `Editor.save_file()`; the early-return chain is split into the staged
helpers above. -/
def save_file (ed : EditorState) (env : SaveEnv) : EditorState × Bool :=
  if ed.in_memory then
    ({ ed with
        status_message := "In-memory mode: Save not applicable.".data,
        is_dirty := false }, true)
  else
    match ed.filename with
    | none =>
      match env.promptSaveAs with
      | none => ({ ed with status_message := "Save cancelled.".data }, false)
      | some new_filename =>
        save_file_named { ed with filename := some new_filename } new_filename env
    | some fn => save_file_named ed fn env

/-- The sequential `self.buffer.insert(self.cursor_y + i, line)` loop of the
paste branch (`for i, line in enumerate(new_lines + [last_line], 1)`). -/
def insertLinesFrom (b : List GapBuffer) (pos : Int) : List GapBuffer → List GapBuffer
  | [] => b
  | l :: ls => insertLinesFrom (pyInsert b pos l) (pos + 1) ls

/-- The paste branch of `Editor.handle_keypress` (Unix: the clipboard is
`self.clipboard`). -/
def paste_action (ed : EditorState) : EditorState :=
  let ed := if ed.is_selecting then delete_selection ed else ed
  let lines := splitNL ed.clipboard
  let ed :=
    if lines.length = 1 then
      let l0 := lines.headD []
      { ed with
        buffer := pySet ed.buffer ed.cursor_y
          ((pyGet ed.buffer ed.cursor_y defaultLine).insert l0 ed.cursor_x),
        cursor_x := ed.cursor_x + (l0.length : Int) }
    else
      let current_line := pyGet ed.buffer ed.cursor_y defaultLine
      let line_remainder := current_line.get_slice (some ed.cursor_x) none
      let current_line2 := current_line.delete ed.cursor_x
        ((current_line.to_string.length : Int) - ed.cursor_x)
      let current_line3 := current_line2.insert (lines.headD []) ed.cursor_x
      let buffer := pySet ed.buffer ed.cursor_y current_line3
      let new_lines := ((lines.drop 1).dropLast).map GapBuffer.init
      let last_line := GapBuffer.init (lines.getLastD [] ++ line_remainder)
      let buffer := insertLinesFrom buffer (ed.cursor_y + 1) (new_lines ++ [last_line])
      { ed with
        buffer := buffer,
        cursor_y := ed.cursor_y + ((lines.length : Int) - 1),
        cursor_x := ((lines.getLastD []).length : Int) }
  { ed with is_dirty := true }

/-- The non-quit branches of the `Editor.handle_keypress` dispatch chain
(the `elif action == ...` arms; `quit` is handled by the caller because it
returns before `clamp_cursor`). -/
def apply_action (ed : EditorState) (action : Option EditorAction)
    (char : List Char) (env : KeyEnv) : EditorState :=
  match action with
  | some .toggle_help => { ed with help_mode := !ed.help_mode }
  | some .save => (save_file ed env.save).1
  | some .copy => copy_selection ed
  | some .cut => delete_selection (copy_selection ed)
  | some .paste => paste_action ed
  | some .move_up => { ed with cursor_y := ed.cursor_y - 1 }
  | some .move_down => { ed with cursor_y := ed.cursor_y + 1 }
  | some .move_left =>
    if 0 < ed.cursor_x then { ed with cursor_x := ed.cursor_x - 1 }
    else if 0 < ed.cursor_y then
      let ed := { ed with cursor_y := ed.cursor_y - 1 }
      { ed with cursor_x := ((lineAt ed ed.cursor_y).length : Int) }
    else ed
  | some .move_right =>
    if ed.cursor_x < ((lineAt ed ed.cursor_y).length : Int) then
      { ed with cursor_x := ed.cursor_x + 1 }
    else if ed.cursor_y < (ed.buffer.length : Int) - 1 then
      { ed with cursor_y := ed.cursor_y + 1, cursor_x := 0 }
    else ed
  | some .move_home => { ed with cursor_x := 0 }
  | some .move_end => { ed with cursor_x := ((lineAt ed ed.cursor_y).length : Int) }
  | some .move_page_up => { ed with cursor_y := ed.cursor_y - (env.termHeight - 2) }
  | some .move_page_down => { ed with cursor_y := ed.cursor_y + (env.termHeight - 2) }
  | some .move_prev_word => _find_prev_word ed
  | some .move_next_word => _find_next_word ed
  | some .move_doc_start => { ed with cursor_y := 0, cursor_x := 0 }
  | some .move_doc_end =>
    let ed := { ed with cursor_y := (ed.buffer.length : Int) - 1 }
    { ed with cursor_x := ((lineAt ed ed.cursor_y).length : Int) }
  | some .delete_back =>
    let ed := { ed with is_dirty := true }
    if 0 < ed.cursor_x then
      { ed with
        buffer := pySet ed.buffer ed.cursor_y
          ((pyGet ed.buffer ed.cursor_y defaultLine).delete (ed.cursor_x - 1) 1),
        cursor_x := ed.cursor_x - 1 }
    else if 0 < ed.cursor_y then
      let line_content := lineAt ed ed.cursor_y
      let ed := { ed with buffer := pyPop ed.buffer ed.cursor_y,
                          cursor_y := ed.cursor_y - 1 }
      let ed := { ed with cursor_x := ((lineAt ed ed.cursor_y).length : Int) }
      { ed with
        buffer := pySet ed.buffer ed.cursor_y
          ((pyGet ed.buffer ed.cursor_y defaultLine).insert line_content ed.cursor_x) }
    else ed
  | some .delete_forward =>
    let ed := { ed with is_dirty := true }
    if ed.cursor_x < ((lineAt ed ed.cursor_y).length : Int) then
      { ed with
        buffer := pySet ed.buffer ed.cursor_y
          ((pyGet ed.buffer ed.cursor_y defaultLine).delete ed.cursor_x 1) }
    else if ed.cursor_y < (ed.buffer.length : Int) - 1 then
      let line_content := lineAt ed (ed.cursor_y + 1)
      let ed := { ed with buffer := pyPop ed.buffer (ed.cursor_y + 1) }
      { ed with
        buffer := pySet ed.buffer ed.cursor_y
          ((pyGet ed.buffer ed.cursor_y defaultLine).insert line_content ed.cursor_x) }
    else ed
  | some .insert_newline =>
    let ed := { ed with is_dirty := true }
    let current_line := pyGet ed.buffer ed.cursor_y defaultLine
    let line_remainder := current_line.get_slice (some ed.cursor_x) none
    let current_line2 := current_line.delete ed.cursor_x
      ((current_line.to_string.length : Int) - ed.cursor_x)
    let buffer := pySet ed.buffer ed.cursor_y current_line2
    let buffer := pyInsert buffer (ed.cursor_y + 1) (GapBuffer.init line_remainder)
    { ed with buffer := buffer, cursor_y := ed.cursor_y + 1, cursor_x := 0 }
  | some .insert_char =>
    let ed := { ed with is_dirty := true }
    { ed with
      buffer := pySet ed.buffer ed.cursor_y
        ((pyGet ed.buffer ed.cursor_y defaultLine).insert char ed.cursor_x),
      cursor_x := ed.cursor_x + (char.length : Int) }
  | some .quit => ed
  | none => ed

/-- Is the action one of `editing_actions` (the set that first deletes an
active selection)? -/
def isEditingAction : Option EditorAction → Bool
  | some .delete_back | some .delete_forward
  | some .insert_newline | some .insert_char => true
  | _ => false

/-- The opening straight-line part of `Editor.handle_keypress`: reset the
status message, drop the selection on a plain movement key, start one on a
shift-movement key, and delete an active selection before an editing
action is dispatched. -/
def hk_flags (ed0 : EditorState) (key : Key) : EditorState :=
  let ed := { ed0 with status_message := helpStatus }
  let ed := if isPlainMovementKey key && ed.is_selecting then
      { ed with is_selecting := false }
    else ed
  let ed := if isShiftMovementKey key && !ed.is_selecting then
      { ed with is_selecting := true, selection_start_x := ed.cursor_x,
                selection_start_y := ed.cursor_y }
    else ed
  if ed.is_selecting && isEditingAction (action_map key) then delete_selection ed
  else ed

/-- The `quit` branch of `Editor.handle_keypress`: prompt to save a dirty
file, save on `y`, stop on `n` or when clean. -/
def hk_quit (ed : EditorState) (env : KeyEnv) : EditorState :=
  if ed.is_dirty && !ed.in_memory then
    let ed := { ed with status_message := [] }
    match env.promptQuitSave with
    | some response =>
      if toLowerStr response = ['y'] then
        match save_file ed env.save with
        | (ed2, true) => { ed2 with running := false }
        | (ed2, false) => ed2
      else if toLowerStr response = ['n'] then { ed with running := false }
      else ed
    | none => ed
  else { ed with running := false }

/-- `Editor.handle_keypress(key, char)`.  The `quit` branch returns before
`clamp_cursor`, exactly as the `return` in the source does. -/
def handle_keypress (ed0 : EditorState) (key : Key) (char : List Char)
    (env : KeyEnv) : EditorState :=
  let ed := hk_flags ed0 key
  let action := action_map key
  if action = some EditorAction.quit then hk_quit ed env
  else clamp_cursor (apply_action ed action char env)

/-! ## Editor scenario claims -/

/-- An inert environment: no prompts answered, no file present, writes
succeed (none of it is consulted by the scenarios below). -/
def quietEnv : KeyEnv :=
  { termHeight := 24, promptQuitSave := none,
    save := { promptSaveAs := none, promptOverwrite := none,
              fileExists := false, writeError := none } }

/-- The C2 scenario start state: document lines `hello` / `world`, cursor at
(0,5), clipboard `"X\nY"`. -/
def c2_initial : EditorState :=
  { editor_init (some "f.txt".data) false (some ["hello".data, "world".data]) with
      cursor_x := 5, clipboard := "X\nY".data }

/-- The C2 scenario after the paste keypress (Ctrl-V). -/
def c2_result : EditorState := handle_keypress c2_initial Key.CTRL_V [] quietEnv

/-- C2 counterexample: the paste scenario does **not** produce the claimed
two-line document `["helloX", "Yworld"]` with cursor (1,1). -/
theorem claim_C2_paste_scenario_counterexample :
    ¬(c2_result.buffer.map GapBuffer.to_string = ["helloX".data, "Yworld".data] ∧
      c2_result.cursor_y = 1 ∧ c2_result.cursor_x = 1) := by decide

/-- C2 (amended): pasting clipboard `"X\nY"` at (0,5) in the document
`hello` / `world` yields the **three**-line document
`["helloX", "Y", "world"]` with the cursor at (1,1) and the dirty flag set:
the remainder of the current line after the cursor is empty, so the last
pasted segment `"Y"` becomes its own line and `world` is untouched, exactly
as the paste contract ("reattaches the original line's remainder after the
last pasted segment") prescribes. -/
theorem claim_C2_paste_scenario_amended :
    c2_result.buffer.map GapBuffer.to_string =
      ["helloX".data, "Y".data, "world".data] ∧
    c2_result.cursor_y = 1 ∧ c2_result.cursor_x = 1 ∧
    c2_result.is_dirty = true := by decide

/-- The C8 boundary scenario: the editor opened on an empty file. -/
def c8_e0 : EditorState := editor_init (some "f.txt".data) false (some [])

/-- The C8 scenario after pressing Enter. -/
def c8_e1 : EditorState := handle_keypress c8_e0 Key.ENTER [] quietEnv

/-- The C8 scenario after pressing Enter then Backspace. -/
def c8_e2 : EditorState := handle_keypress c8_e1 Key.BACKSPACE [] quietEnv

/-- C8 (Enter-then-Backspace round-trip on the boundary document): an empty
or missing file opens as exactly one empty line with the dirty flag clear;
Enter then Backspace returns the document to the single empty line with the
cursor at (0,0), and the dirty flag goes false → true → true. -/
theorem claim_C8_enter_backspace_roundtrip :
    ((editor_init (some "f.txt".data) false none).buffer.map GapBuffer.to_string
        = [[]] ∧
      (editor_init (some "f.txt".data) false none).is_dirty = false) ∧
    (c8_e0.buffer.map GapBuffer.to_string = [[]] ∧ c8_e0.is_dirty = false) ∧
    c8_e1.is_dirty = true ∧
    (c8_e2.buffer.map GapBuffer.to_string = [[]] ∧
      c8_e2.cursor_y = 0 ∧ c8_e2.cursor_x = 0 ∧ c8_e2.is_dirty = true) := by decide

/-- C7 (save I/O error handling): with a filename set, not in-memory, and
the overwrite either confirmed or not needed, an `OSError` raised by the
file write is caught: `save_file` returns `False`, the status message
reports the error, the dirty flag is untouched (a dirty document stays
dirty) and the running flag is untouched, so editing continues. -/
theorem claim_C7_save_io_error (ed : EditorState) (env : SaveEnv) (fn e : List Char)
    (hmem : ed.in_memory = false)
    (hfn : ed.filename = some fn)
    (hover : env.fileExists = true →
      ∃ ow, env.promptOverwrite = some ow ∧ (toLowerStr ow).take 1 = ['y'])
    (herr : env.writeError = some e) :
    (save_file ed env).2 = false ∧
    (save_file ed env).1.status_message = "Error saving: ".data ++ e ∧
    (save_file ed env).1.is_dirty = ed.is_dirty ∧
    (save_file ed env).1.running = ed.running := by
  have hwrite : ∀ ed' : EditorState, save_file_write ed' fn env =
      ({ ed' with status_message := "Error saving: ".data ++ e }, false) := by
    intro ed'
    unfold save_file_write
    rw [herr]
  unfold save_file
  rw [hmem, hfn]
  simp only [Bool.false_eq_true, if_false]
  by_cases hex : env.fileExists = true
  · obtain ⟨ow, how, hyes⟩ := hover hex
    unfold save_file_named
    rw [hex, if_pos rfl, how]
    dsimp only
    rw [if_pos hyes, hwrite]
    exact ⟨rfl, rfl, rfl, rfl⟩
  · unfold save_file_named
    rw [Bool.not_eq_true] at hex
    rw [hex]
    simp only [Bool.false_eq_true, if_false]
    rw [hwrite]
    exact ⟨rfl, rfl, rfl, rfl⟩

/-- C7 witness: a dirty editor with a set filename, overwrite confirmed,
and a failing write. -/
theorem claim_C7_save_io_error_witness :
    ((save_file { c8_e0 with is_dirty := true }
        { promptSaveAs := none, promptOverwrite := some "y".data,
          fileExists := true, writeError := some "disk full".data }).2 = false ∧
      (save_file { c8_e0 with is_dirty := true }
        { promptSaveAs := none, promptOverwrite := some "y".data,
          fileExists := true, writeError := some "disk full".data }).1.status_message =
        "Error saving: ".data ++ "disk full".data ∧
      (save_file { c8_e0 with is_dirty := true }
        { promptSaveAs := none, promptOverwrite := some "y".data,
          fileExists := true, writeError := some "disk full".data }).1.is_dirty =
        ({ c8_e0 with is_dirty := true } : EditorState).is_dirty ∧
      (save_file { c8_e0 with is_dirty := true }
        { promptSaveAs := none, promptOverwrite := some "y".data,
          fileExists := true, writeError := some "disk full".data }).1.running =
        ({ c8_e0 with is_dirty := true } : EditorState).running) :=
  claim_C7_save_io_error { c8_e0 with is_dirty := true }
    { promptSaveAs := none, promptOverwrite := some "y".data,
      fileExists := true, writeError := some "disk full".data }
    "f.txt".data "disk full".data rfl rfl
    (fun _ => ⟨"y".data, rfl, by decide⟩) rfl

theorem represents_get_slice_from (gb : GapBuffer) (cs : List Char) (a : Nat)
    (h : Represents gb cs) :
    gb.get_slice (some (a : Int)) none = cs.drop a := by
  unfold GapBuffer.get_slice
  dsimp only
  rw [represents_to_string h, sliceIdx_natCast, List.take_length, drop_min_length]

/-- C4 (multi-line selection deletion): for every document and every active
selection from `(sy, sx)` to a strictly later line `(ey, ex)` (lines `sy`
and `ey` storing strings `ls` and `le`), `delete_selection` replaces the
start line with `ls[:sx] ++ le[ex:]`, removes the lines strictly between
`sy` and `ey` as well as line `ey`, moves the cursor to `(sy, sx)`, clears
the selection state and marks the document dirty. -/
theorem claim_C4_multiline_delete_selection
    (ed : EditorState) (sy sx ey ex : Int) (ls le : List Char)
    (hsel : get_selection ed = some (sy, sx, ey, ex))
    (hlt : sy < ey)
    (hsy : 0 ≤ sy) (hey : ey < (ed.buffer.length : Int))
    (hsx : 0 ≤ sx) (hex : 0 ≤ ex)
    (hls : Represents (pyGet ed.buffer sy defaultLine) ls)
    (hle : Represents (pyGet ed.buffer ey defaultLine) le) :
    (delete_selection ed).buffer.map GapBuffer.to_string =
      (ed.buffer.take sy.toNat).map GapBuffer.to_string ++
        [ls.take sx.toNat ++ le.drop ex.toNat] ++
        (ed.buffer.drop (ey.toNat + 1)).map GapBuffer.to_string ∧
    (delete_selection ed).cursor_y = sy ∧
    (delete_selection ed).cursor_x = sx ∧
    (delete_selection ed).is_selecting = false ∧
    (delete_selection ed).is_dirty = true := by
  have hsyn : sy = ((sy.toNat : Nat) : Int) := by omega
  have heyn : ey = ((ey.toNat : Nat) : Int) := by omega
  have heylen : ey.toNat < ed.buffer.length := by omega
  have hsylt : sy.toNat < ed.buffer.length := by omega
  -- the two slices of the boundary lines
  have hslice1 : (pyGet ed.buffer sy defaultLine).get_slice (some 0) (some sx) =
      ls.take sx.toNat := by
    have := represents_get_slice (pyGet ed.buffer sy defaultLine) ls 0 sx.toNat hls
    rw [show (((0 : Nat)) : Int) = (0 : Int) by simp,
      show ((sx.toNat : Nat) : Int) = sx by omega, List.drop_zero] at this
    exact this
  have hslice2 : (pyGet ed.buffer ey defaultLine).get_slice (some ex) none =
      le.drop ex.toNat := by
    have := represents_get_slice_from (pyGet ed.buffer ey defaultLine) le ex.toNat hle
    rw [show ((ex.toNat : Nat) : Int) = ex by omega] at this
    exact this
  unfold delete_selection
  rw [hsel]
  dsimp only
  rw [if_neg (by omega)]
  rw [hslice1, hslice2]
  set newGB := GapBuffer.init (ls.take sx.toNat ++ le.drop ex.toNat) with hnew
  -- the buffer update
  have hset : pySet ed.buffer sy newGB = ed.buffer.set sy.toNat newGB := by
    conv_lhs => rw [hsyn]
    rw [pySet_natCast]
  have hlen1 : (ed.buffer.set sy.toNat newGB).length = ed.buffer.length :=
    List.length_set ed.buffer sy.toNat newGB
  have hdel : pyDelSlice (ed.buffer.set sy.toNat newGB) (sy + 1) (ey + 1) =
      (ed.buffer.set sy.toNat newGB).take (sy.toNat + 1) ++
        (ed.buffer.set sy.toNat newGB).drop (ey.toNat + 1) := by
    rw [show sy + 1 = ((sy.toNat + 1 : Nat) : Int) by omega,
      show ey + 1 = ((ey.toNat + 1 : Nat) : Int) by omega,
      pyDelSlice_natCast _ _ _ (by omega) (by omega)]
  have htake : (ed.buffer.set sy.toNat newGB).take (sy.toNat + 1) =
      ed.buffer.take sy.toNat ++ [newGB] := by
    rw [List.set_eq_take_cons_drop newGB hsylt]
    have hA : (ed.buffer.take sy.toNat).length = sy.toNat := by
      rw [List.length_take]
      omega
    rw [show sy.toNat + 1 = (ed.buffer.take sy.toNat).length + 1 by rw [hA],
      List.take_append 1]
    rfl
  have hdrop : (ed.buffer.set sy.toNat newGB).drop (ey.toNat + 1) =
      ed.buffer.drop (ey.toNat + 1) :=
    List.drop_set_of_lt newGB ed.buffer (by omega)
  rw [hset, hdel, htake, hdrop]
  refine ⟨?_, rfl, rfl, rfl, rfl⟩
  simp only [List.map_append, List.map_cons, List.map_nil, List.append_assoc]
  rw [hnew, represents_to_string (init_represents _)]

/-- The C4 witness state: 3-line document `abcde` / `fgh` / `ijklm`,
selection anchored at (0,3) with the cursor at (2,2). -/
def c4_state : EditorState :=
  { editor_init (some "f.txt".data) false
      (some ["abcde".data, "fgh".data, "ijklm".data]) with
    cursor_y := 2, cursor_x := 2, is_selecting := true,
    selection_start_y := 0, selection_start_x := 3 }

/-- C4 witness: the claim's 3-line scenario — the document collapses to the
single line `line0[:3] ++ line2[2:] = "abcklm"` with the cursor at (0,3). -/
theorem claim_C4_multiline_delete_selection_witness :
    (delete_selection c4_state).buffer.map GapBuffer.to_string = ["abcklm".data] ∧
    (delete_selection c4_state).cursor_y = 0 ∧
    (delete_selection c4_state).cursor_x = 3 ∧
    (delete_selection c4_state).is_selecting = false ∧
    (delete_selection c4_state).is_dirty = true := by
  have h := claim_C4_multiline_delete_selection c4_state 0 3 2 2
    "abcde".data "ijklm".data (by decide) (by decide) (by decide) (by decide)
    (by decide) (by decide) (by decide) (by decide)
  exact ⟨h.1.trans (by decide), h.2.1, h.2.2.1, h.2.2.2.1, h.2.2.2.2⟩

/-! ## The document/cursor invariant (C5) -/

/-- The claim's invariant: the document is never empty, the cursor line
index is in `[0, lineCount)` and the cursor character offset is in
`[0, length of the cursor's line]`. -/
def Inv (ed : EditorState) : Prop :=
  0 < ed.buffer.length ∧
  0 ≤ ed.cursor_y ∧ ed.cursor_y < (ed.buffer.length : Int) ∧
  0 ≤ ed.cursor_x ∧ ed.cursor_x ≤ ((lineAt ed ed.cursor_y).length : Int)

/-- Editor well-formedness: the invariant plus a valid selection anchor
while a selection is active (the anchor is always set from an in-range
cursor, so this holds in every reachable state). -/
def EditorWF (ed : EditorState) : Prop :=
  Inv ed ∧ (ed.is_selecting = true →
    0 ≤ ed.selection_start_y ∧ ed.selection_start_y < (ed.buffer.length : Int))

theorem inv_of_fields {ed ed' : EditorState} (hb : ed'.buffer = ed.buffer)
    (hx : ed'.cursor_x = ed.cursor_x) (hy : ed'.cursor_y = ed.cursor_y)
    (h : Inv ed) : Inv ed' := by
  unfold Inv lineAt at *
  rw [hb, hx, hy]
  exact h

theorem clamp_cursor_inv (ed : EditorState) (h : 0 < ed.buffer.length) :
    Inv (clamp_cursor ed) := by
  unfold clamp_cursor Inv lineAt
  dsimp only
  have hL : (0 : Int) ≤ (((pyGet ed.buffer
      (max 0 (min ed.cursor_y ((ed.buffer.length : Int) - 1)))
      defaultLine).to_string).length : Int) := by positivity
  refine ⟨h, by omega, by omega, by omega, by omega⟩

theorem length_pySet (l : List α) (i : Int) (x : α) :
    (pySet l i x).length = l.length := by
  unfold pySet
  split <;> rw [List.length_set]

theorem length_pyInsert (l : List α) (i : Int) (x : α) :
    (pyInsert l i x).length = l.length + 1 := by
  unfold pyInsert
  dsimp only
  rw [List.length_append, List.length_append, List.length_take, List.length_drop]
  have := sliceIdx_le l.length i
  simp only [List.length_cons, List.length_nil]
  omega

theorem length_pyDelSlice (l : List α) (a b : Int) :
    (pyDelSlice l a b).length = sliceIdx l.length a +
      (l.length - max (sliceIdx l.length a) (sliceIdx l.length b)) := by
  unfold pyDelSlice
  dsimp only
  rw [List.length_append, List.length_take, List.length_drop]
  have := sliceIdx_le l.length a
  have := sliceIdx_le l.length b
  omega

theorem one_le_sliceIdx (L : Nat) (i : Int) (hL : 1 ≤ L) (hi : 1 ≤ i) :
    1 ≤ sliceIdx L i := by
  unfold sliceIdx
  rw [if_pos (by omega)]
  omega

theorem pyPop_pos (l : List α) (i : Int) (hl : 0 < l.length) (hi : 1 ≤ i) :
    0 < (pyPop l i).length := by
  unfold pyPop
  dsimp only
  rw [List.length_append, List.length_take, List.length_drop]
  have h1 := one_le_sliceIdx l.length i hl hi
  have h2 := sliceIdx_le l.length i
  omega

theorem insertLinesFrom_length_le (ls : List GapBuffer) (b : List GapBuffer) (pos : Int) :
    b.length ≤ (insertLinesFrom b pos ls).length := by
  induction ls generalizing b pos with
  | nil => exact le_rfl
  | cons l ls ih =>
    calc b.length ≤ (pyInsert b pos l).length := by rw [length_pyInsert]; omega
      _ ≤ _ := ih _ _

theorem get_selection_some (ed : EditorState) (sy sx ey ex : Int)
    (h : get_selection ed = some (sy, sx, ey, ex)) :
    ed.is_selecting = true ∧ sy = min ed.selection_start_y ed.cursor_y ∧
      ey = max ed.selection_start_y ed.cursor_y := by
  unfold get_selection at h
  split_ifs at h with h1 h2 h3 <;>
    simp only [not_or, not_not] at h1 <;>
    simp only [Option.some.injEq, Prod.mk.injEq] at h <;>
    exact ⟨h1.1, h.1.symm, h.2.2.1.symm⟩

theorem delete_selection_P (ed : EditorState) (hlen : 0 < ed.buffer.length)
    (hcy : 0 ≤ ed.cursor_y)
    (hsel : ed.is_selecting = true → 0 ≤ ed.selection_start_y) :
    0 < (delete_selection ed).buffer.length ∧ 0 ≤ (delete_selection ed).cursor_y := by
  unfold delete_selection
  rcases hget : get_selection ed with _ | ⟨sy, sx, ey, ex⟩
  · exact ⟨hlen, hcy⟩
  · obtain ⟨hissel, hsy, _⟩ := get_selection_some ed sy sx ey ex hget
    have hsy0 : 0 ≤ sy := by
      have := hsel hissel
      omega
    dsimp only
    split_ifs with heq
    · refine ⟨?_, hsy0⟩
      dsimp only
      rw [length_pySet]
      exact hlen
    · refine ⟨?_, hsy0⟩
      dsimp only
      rw [length_pyDelSlice, length_pySet]
      have h1 : 1 ≤ sliceIdx ed.buffer.length (sy + 1) :=
        one_le_sliceIdx _ _ (by omega) (by omega)
      have h2 := sliceIdx_le ed.buffer.length (ey + 1)
      omega

theorem delete_selection_selwf (ed : EditorState)
    (hsel : ed.is_selecting = true → 0 ≤ ed.selection_start_y) :
    (delete_selection ed).is_selecting = true →
      0 ≤ (delete_selection ed).selection_start_y := by
  unfold delete_selection
  rcases hget : get_selection ed with _ | ⟨sy, sx, ey, ex⟩
  · exact hsel
  · dsimp only
    split_ifs with heq <;> (intro hfalse; simp at hfalse)

theorem copy_selection_fields (ed : EditorState) :
    (copy_selection ed).buffer = ed.buffer ∧
    (copy_selection ed).cursor_x = ed.cursor_x ∧
    (copy_selection ed).cursor_y = ed.cursor_y ∧
    (copy_selection ed).is_selecting = ed.is_selecting ∧
    (copy_selection ed).selection_start_y = ed.selection_start_y := by
  unfold copy_selection
  rcases hget : get_selection ed with _ | ⟨sy, sx, ey, ex⟩
  · exact ⟨rfl, rfl, rfl, rfl, rfl⟩
  · dsimp only
    exact ⟨rfl, rfl, rfl, rfl, rfl⟩

theorem save_file_fields (ed : EditorState) (env : SaveEnv) :
    (save_file ed env).1.buffer = ed.buffer ∧
    (save_file ed env).1.cursor_x = ed.cursor_x ∧
    (save_file ed env).1.cursor_y = ed.cursor_y := by
  have hwrite : ∀ (ed' : EditorState) fn, (save_file_write ed' fn env).1.buffer = ed'.buffer ∧
      (save_file_write ed' fn env).1.cursor_x = ed'.cursor_x ∧
      (save_file_write ed' fn env).1.cursor_y = ed'.cursor_y := by
    intro ed' fn
    unfold save_file_write
    rcases env.writeError with _ | e <;> exact ⟨rfl, rfl, rfl⟩
  have hnamed : ∀ (ed' : EditorState) fn, (save_file_named ed' fn env).1.buffer = ed'.buffer ∧
      (save_file_named ed' fn env).1.cursor_x = ed'.cursor_x ∧
      (save_file_named ed' fn env).1.cursor_y = ed'.cursor_y := by
    intro ed' fn
    unfold save_file_named
    split_ifs with h1
    · rcases env.promptOverwrite with _ | ow
      · exact ⟨rfl, rfl, rfl⟩
      · dsimp only
        split_ifs with h2
        · exact hwrite ed' fn
        · exact ⟨rfl, rfl, rfl⟩
    · exact hwrite ed' fn
  unfold save_file
  split_ifs with h1
  · exact ⟨rfl, rfl, rfl⟩
  · rcases hfn : ed.filename with _ | fn
    · rcases hsa : env.promptSaveAs with _ | nf
      · exact ⟨rfl, rfl, rfl⟩
      · exact hnamed _ nf
    · exact hnamed ed fn

theorem find_next_word_buffer (ed : EditorState) :
    (_find_next_word ed).buffer = ed.buffer := by
  unfold _find_next_word
  dsimp only
  split_ifs <;> rfl

theorem find_prev_word_buffer (ed : EditorState) :
    (_find_prev_word ed).buffer = ed.buffer := by
  unfold _find_prev_word
  dsimp only
  split_ifs <;> rfl

theorem paste_action_nonempty (ed : EditorState) (hlen : 0 < ed.buffer.length)
    (hcy : 0 ≤ ed.cursor_y)
    (hsel : ed.is_selecting = true → 0 ≤ ed.selection_start_y) :
    0 < (paste_action ed).buffer.length := by
  unfold paste_action
  dsimp only
  have hP : 0 < (if ed.is_selecting then delete_selection ed else ed).buffer.length := by
    split_ifs with hs
    · exact (delete_selection_P ed hlen hcy hsel).1
    · exact hlen
  set ed1 := if ed.is_selecting then delete_selection ed else ed with hed1
  split_ifs with hone
  · rw [length_pySet]
    exact hP
  · refine lt_of_lt_of_le ?_ (insertLinesFrom_length_le _ _ _)
    rw [length_pySet]
    exact hP

theorem apply_action_nonempty (ed : EditorState) (a : Option EditorAction)
    (char : List Char) (env : KeyEnv) (hlen : 0 < ed.buffer.length)
    (hcy : 0 ≤ ed.cursor_y)
    (hsel : ed.is_selecting = true → 0 ≤ ed.selection_start_y) :
    0 < (apply_action ed a char env).buffer.length := by
  unfold apply_action
  rcases a with _ | a
  · exact hlen
  cases a with
  | toggle_help => exact hlen
  | save =>
    dsimp only
    rw [(save_file_fields ed env.save).1]
    exact hlen
  | copy =>
    dsimp only
    rw [(copy_selection_fields ed).1]
    exact hlen
  | cut =>
    dsimp only
    have hc := copy_selection_fields ed
    refine (delete_selection_P (copy_selection ed) ?_ ?_ ?_).1
    · rw [hc.1]; exact hlen
    · rw [hc.2.2.1]; exact hcy
    · intro hs
      rw [hc.2.2.2.2]
      exact hsel (by rw [← hc.2.2.2.1]; exact hs)
  | paste => exact paste_action_nonempty ed hlen hcy hsel
  | move_up => exact hlen
  | move_down => exact hlen
  | move_left =>
    dsimp only
    split_ifs <;> exact hlen
  | move_right =>
    dsimp only
    split_ifs <;> exact hlen
  | move_home => exact hlen
  | move_end => exact hlen
  | move_page_up => exact hlen
  | move_page_down => exact hlen
  | move_prev_word =>
    dsimp only
    rw [find_prev_word_buffer]
    exact hlen
  | move_next_word =>
    dsimp only
    rw [find_next_word_buffer]
    exact hlen
  | move_doc_start => exact hlen
  | move_doc_end => exact hlen
  | delete_back =>
    dsimp only
    split_ifs with h1 h2
    · rw [length_pySet]; exact hlen
    · rw [length_pySet]
      exact pyPop_pos _ _ hlen (by omega)
    · exact hlen
  | delete_forward =>
    dsimp only
    split_ifs with h1 h2
    · rw [length_pySet]; exact hlen
    · rw [length_pySet]
      exact pyPop_pos _ _ hlen (by omega)
    · exact hlen
  | insert_newline =>
    dsimp only
    rw [length_pyInsert]
    omega
  | insert_char =>
    dsimp only
    rw [length_pySet]
    exact hlen
  | quit => exact hlen

theorem hk_flags_P (ed : EditorState) (key : Key) (hlen : 0 < ed.buffer.length)
    (hcy : 0 ≤ ed.cursor_y)
    (hsel : ed.is_selecting = true → 0 ≤ ed.selection_start_y) :
    0 < (hk_flags ed key).buffer.length ∧ 0 ≤ (hk_flags ed key).cursor_y ∧
      ((hk_flags ed key).is_selecting = true →
        0 ≤ (hk_flags ed key).selection_start_y) := by
  unfold hk_flags
  dsimp only
  split_ifs <;>
    first
      | exact ⟨hlen, hcy, hsel⟩
      | exact ⟨hlen, hcy, fun hf => absurd hf Bool.false_ne_true⟩
      | exact ⟨hlen, hcy, fun _ => hcy⟩
      | (refine ⟨(delete_selection_P _ ?_ ?_ ?_).1,
                 (delete_selection_P _ ?_ ?_ ?_).2,
                 delete_selection_selwf _ ?_⟩ <;>
           first
             | exact hlen
             | exact hcy
             | exact hsel
             | exact fun _ => hcy)
      | simp_all

theorem hk_flags_fields (ed : EditorState) (key : Key)
    (hne : isEditingAction (action_map key) = false) :
    (hk_flags ed key).buffer = ed.buffer ∧
    (hk_flags ed key).cursor_x = ed.cursor_x ∧
    (hk_flags ed key).cursor_y = ed.cursor_y := by
  unfold hk_flags
  dsimp only
  rw [hne, Bool.and_false]
  split_ifs <;> first | exact ⟨rfl, rfl, rfl⟩ | simp_all

theorem hk_quit_inv (ed : EditorState) (env : KeyEnv) (h : Inv ed) :
    Inv (hk_quit ed env) := by
  unfold hk_quit
  split_ifs with h1
  · rcases env.promptQuitSave with _ | response
    · dsimp only
      exact inv_of_fields rfl rfl rfl h
    · dsimp only
      split_ifs with h2 h3
      · rcases hs : save_file { ed with status_message := [] } env.save with ⟨ed2, ok⟩
        have hf := save_file_fields { ed with status_message := [] } env.save
        rw [hs] at hf
        dsimp only at hf
        rcases ok
        · exact inv_of_fields hf.1 hf.2.1 hf.2.2 h
        · exact inv_of_fields hf.1 hf.2.1 hf.2.2 h
      · exact inv_of_fields rfl rfl rfl h
      · exact inv_of_fields rfl rfl rfl h
  · exact inv_of_fields rfl rfl rfl h

/-- **C5** — Document/cursor invariant: after every completed
`handle_keypress` call (any key, any prompt environment), starting from a
well-formed state, the document has at least one line, the cursor line
index lies in `[0, lineCount)` and the cursor character offset lies in
`[0, length of the cursor's line]`. -/
theorem claim_C5_cursor_invariant (ed : EditorState) (key : Key)
    (char : List Char) (env : KeyEnv) (h : EditorWF ed) :
    Inv (handle_keypress ed key char env) := by
  obtain ⟨hinv, hselwf⟩ := h
  unfold handle_keypress
  dsimp only
  split_ifs with hq
  · have hne : isEditingAction (action_map key) = false := by
      rw [hq]
      rfl
    have hf := hk_flags_fields ed key hne
    exact hk_quit_inv _ env (inv_of_fields hf.1 hf.2.1 hf.2.2 hinv)
  · have hp := hk_flags_P ed key hinv.1 hinv.2.1 (fun hs => (hselwf hs).1)
    exact clamp_cursor_inv _ (apply_action_nonempty _ _ char env hp.1 hp.2.1 hp.2.2)

/-- A concrete well-formed start state for the C5 witness: an unnamed
in-memory document with one empty line. -/
def c5_state : EditorState := editor_init none true none

theorem claim_C5_cursor_invariant_witness :
    EditorWF c5_state ∧ Inv (handle_keypress c5_state Key.UP [] quietEnv) :=
  have hwf : EditorWF c5_state :=
    ⟨⟨by decide, by decide, by decide, by decide, by decide⟩,
     fun hs => absurd hs (by decide)⟩
  ⟨hwf, claim_C5_cursor_invariant c5_state Key.UP [] quietEnv hwf⟩

end Anled
